import Mathlib

/-!
Shallow embedding of `src/components/map/MapMarkers.tsx` from the
logistic-app repository, together with proofs of the specified
properties of the marker synchronizer (`createMarkers`), the viewport
fitter (`fitMapToMarkers`) and the outbound link builder
(`createGoogleMapsLink`).

Modelling choices:
* JavaScript numbers carry only decimal literals, comparisons, `Math.abs`
  and min/max here, so they are embedded as rationals (`ℚ`).
* The `Map<string, L.Marker>` cache is an association list in insertion
  order: `get` is the first matching entry, `set` overwrites in place or
  appends, the final `forEach`-with-`delete` sweep is a filter.
* A Leaflet marker is a record of the data captured at construction time
  (position, icon, popup HTML, popup options, click handler) plus a
  numeric `uid` standing for JavaScript object identity; `uid`s are
  allocated from a counter carried in the synchronizer state.
* The Leaflet map surface is split into the part the code reads and
  writes: the set of attached layers (`hasLayer` / `addTo` /
  `removeLayer`) as a list of marker uids, and the camera.  Camera
  mutations (`fitBounds`, `setView`) are recorded as `CameraOp` values;
  `applyCameraOp` gives their meaning on a camera for any
  renderer-computed fit zoom.
* Every side effect of a synchronization pass (marker creation,
  attachment, detachment) is also logged as an `Event`, so that
  "no additional side effects" claims are statable.
-/

namespace MapCore

/-- EmployeeType mirrors the `'interne' | 'externe'` union in `types`. -/
inductive EmployeeType where
  | interne
  | externe
deriving DecidableEq, Repr

/-- Warehouse mirrors the `Warehouse` interface: coordinates are required. -/
structure Warehouse where
  id : String
  name : String
  companyId : String
  companyName : String
  phone : List String
  address : String
  coordinates : ℚ × ℚ
  createdAt : String
deriving DecidableEq, Repr

/-- Chauffeur mirrors the `Chauffeur` interface: coordinates are optional. -/
structure Chauffeur where
  id : String
  firstName : String
  lastName : String
  fullName : String
  username : String
  password : String
  phone : List String
  vehicleType : String
  employeeType : EmployeeType
  isActive : Bool
  createdAt : String
  coordinates : Option (ℚ × ℚ)
deriving DecidableEq, Repr

/-- Icon values from `MapIcons`, chosen by the mobile/desktop flag. -/
inductive Icon where
  | warehouseIcon
  | chauffeurIcon
  | desktopWarehouseIcon
  | desktopChauffeurIcon
deriving DecidableEq, Repr

/-- ClickHandler is the closure registered by `marker.on('click', ...)`:
it captures the record it was built from and whether the corresponding
optional callback was supplied. -/
inductive ClickHandler where
  | onWarehouse (w : Warehouse) (notify : Bool)
  | onChauffeur (c : Chauffeur) (notify : Bool)
deriving DecidableEq, Repr

/-- PopupOptions mirrors the options object passed to `bindPopup`. -/
structure PopupOptions where
  maxWidth : Nat
  closeButton : Bool
  autoClose : Bool
  autoPan : Bool
  offset : Int × Int
  className : String
deriving DecidableEq, Repr

/-- Marker is the data a Leaflet marker holds after construction in
`createMarkers`, with `uid` standing for object identity. -/
structure Marker where
  uid : Nat
  pos : ℚ × ℚ
  icon : Icon
  popup : String
  popupOptions : PopupOptions
  handler : ClickHandler
deriving DecidableEq, Repr

/-- Cache is the embedding of the module-level `markerCache` map. -/
abbrev Cache := List (String × Marker)

/-- cacheGet embeds `markerCache.get(k)`: first entry with the key. -/
def cacheGet (c : Cache) (k : String) : Option Marker :=
  match c.find? (fun p => p.1 == k) with
  | some p => some p.2
  | none => none

/-- cacheSet embeds `markerCache.set(k, m)`: update in place when the key
is present, append otherwise (JavaScript `Map` insertion order). -/
def cacheSet (c : Cache) (k : String) (m : Marker) : Cache :=
  if (c.find? (fun p => p.1 == k)).isSome then
    c.map (fun p => if p.1 == k then (k, m) else p)
  else
    c ++ [(k, m)]

/-- setAdd embeds `Set.add` on the `currentMarkerIds` set of strings. -/
def setAdd (s : List String) (k : String) : List String :=
  if s.contains k then s else s ++ [k]

/-- SyncState is the persistent state a synchronization pass reads and
writes: the marker cache, the uids attached to the map surface, and the
allocation counter for marker identities. -/
structure SyncState where
  cache : Cache
  layers : List Nat
  nextUid : Nat
deriving DecidableEq, Repr

/-- Event logs one observable side effect of a pass on the marker
objects and the map surface. -/
inductive Event where
  | created (uid : Nat)
  | attached (uid : Nat)
  | detached (uid : Nat)
deriving DecidableEq, Repr

/-- CreateMarkersOptions mirrors the `CreateMarkersOptions` interface
(minus the map surface, which lives in `SyncState`); the optional
callbacks are represented by whether they were supplied. -/
structure CreateMarkersOptions where
  warehouses : List Warehouse
  chauffeurs : List Chauffeur
  t : String → String
  onWarehouseClick : Bool
  onChauffeurClick : Bool
  isMobile : Bool

/-- PopupStyle holds the seven styling strings computed at the top of
`createMarkers`. -/
structure PopupStyle where
  padding : String
  minWidth : String
  maxWidth : String
  fontSize : String
  titleSize : String
  margin : String
  lineMargin : String
deriving DecidableEq, Repr

/-- popupStyle mirrors the `popupPadding` .. `popupLineMargin` bindings. -/
def popupStyle (isMobile : Bool) : PopupStyle where
  padding := if isMobile then ("12px") else ("12px")
  minWidth := if isMobile then ("280px") else ("200px")
  maxWidth := if isMobile then ("320px") else ("250px")
  fontSize := if isMobile then ("14px") else ("14px")
  titleSize := if isMobile then ("16px") else ("16px")
  margin := if isMobile then ("8px") else ("8px")
  lineMargin := if isMobile then ("6px") else ("4px")

/-- hexDigit gives the upper-case hexadecimal digit for `n < 16`. -/
def hexDigit (n : Nat) : Char :=
  if n < 10 then Char.ofNat (48 + n) else Char.ofNat (55 + n)

/-- percentEncodeByte renders one byte as `%XY` with upper-case hex. -/
def percentEncodeByte (b : Nat) : String :=
  String.mk ['%', hexDigit (b / 16), hexDigit (b % 16)]

/-- utf8Bytes is the UTF-8 encoding of a Unicode code point. -/
def utf8Bytes (n : Nat) : List Nat :=
  if n < 128 then [n]
  else if n < 2048 then [192 + n / 64, 128 + n % 64]
  else if n < 65536 then [224 + n / 4096, 128 + (n / 64) % 64, 128 + n % 64]
  else [240 + n / 262144, 128 + (n / 4096) % 64, 128 + (n / 64) % 64, 128 + n % 64]

/-- isUnreservedURI is true for the characters `encodeURIComponent`
leaves unescaped: alphanumerics and `- _ . ! ~ * ' ( )`. -/
def isUnreservedURI (c : Char) : Bool :=
  c.isAlpha || c.isDigit || c == '-' || c == '_' || c == '.' || c == '!' ||
    c == '~' || c == '*' || c == Char.ofNat 39 || c == '(' || c == ')'

/-- encodeURIComponent embeds the JavaScript function of the same name:
unreserved characters pass through, every other character is UTF-8
encoded and percent-escaped byte by byte. -/
def encodeURIComponent (s : String) : String :=
  String.join (s.data.map (fun c =>
    if isUnreservedURI c then String.singleton c
    else String.join ((utf8Bytes c.toNat).map percentEncodeByte)))

/-- jsNumToString renders a rational the way the embedding prints a
JavaScript number into a template literal (integers without a fractional
part, the reduced fraction otherwise). -/
def jsNumToString (q : ℚ) : String :=
  if q.den == 1 then toString q.num else toString q

/-- createGoogleMapsLink embeds the function of the same name. -/
def createGoogleMapsLink (lat : ℚ) (lng : ℚ) (name : String) : String :=
  let encodedName := encodeURIComponent name
  ("https://www.google.com/maps/search/?api=1&query=") ++ jsNumToString lat ++
    (",") ++ jsNumToString lng ++ ("&query_place_id=") ++ encodedName

/-- warehousePopupContent embeds the warehouse popup template literal. -/
def warehousePopupContent (st : PopupStyle) (t : String → String)
    (w : Warehouse) (googleMapsUrl : String) : String :=
  ("\n        <div style=\"padding: ") ++ st.padding ++ ("; min-width: ") ++
    st.minWidth ++ ("; max-width: ") ++ st.maxWidth ++
    ("; background: white; border-radius: 8px; box-shadow: 0 2px 8px rgba(0,0,0,0.1); overflow: hidden;\">\n          <h3 style=\"font-weight: 600; font-size: ") ++
    st.titleSize ++ ("; margin-bottom: ") ++ st.margin ++
    ("; color: #1f2937; word-wrap: break-word;\">") ++ w.name ++
    ("</h3>\n          <p style=\"font-size: ") ++ st.fontSize ++
    ("; color: #6b7280; margin-bottom: ") ++ st.lineMargin ++
    ("; word-wrap: break-word;\"><strong>") ++ t ("warehouses.company") ++
    (":</strong> ") ++ w.companyName ++
    ("</p>\n          <p style=\"font-size: ") ++ st.fontSize ++
    ("; color: #6b7280; margin-bottom: ") ++ st.lineMargin ++
    ("; word-wrap: break-word;\"><strong>") ++ t ("warehouses.address") ++
    (":</strong> ") ++ w.address ++
    ("</p>\n          <p style=\"font-size: ") ++ st.fontSize ++
    ("; color: #6b7280; margin-bottom: ") ++ st.margin ++
    ("; word-wrap: break-word;\"><strong>") ++ t ("warehouses.phone") ++
    (":</strong> ") ++ String.intercalate (", ") w.phone ++
    ("</p>\n          <a href=\"") ++ googleMapsUrl ++
    ("\" target=\"_blank\" style=\"display: inline-block; background: #4285f4; color: white; padding: 8px 12px; text-decoration: none; border-radius: 4px; font-size: ") ++
    st.fontSize ++
    ("; font-weight: 500; margin-top: 4px;\">📍 Ouvrir dans Google Maps</a>\n        </div>\n      ")

/-- chauffeurPopupContent embeds the chauffeur popup template literal. -/
def chauffeurPopupContent (st : PopupStyle) (t : String → String)
    (c : Chauffeur) (displayName : String) : String :=
  ("\n          <div style=\"padding: ") ++ st.padding ++ ("; min-width: ") ++
    st.minWidth ++ ("; max-width: ") ++ st.maxWidth ++
    ("; background: white; border-radius: 8px; box-shadow: 0 2px 8px rgba(0,0,0,0.1); overflow: hidden;\">\n            <h3 style=\"font-weight: 600; font-size: ") ++
    st.titleSize ++ ("; margin-bottom: ") ++ st.margin ++
    ("; color: #1f2937; word-wrap: break-word;\">") ++ displayName ++
    ("</h3>\n            <p style=\"font-size: ") ++ st.fontSize ++
    ("; color: #6b7280; margin-bottom: ") ++ st.lineMargin ++
    ("; word-wrap: break-word;\"><strong>") ++ t ("chauffeurs.employeeType") ++
    (":</strong> ") ++
    (match c.employeeType with
     | EmployeeType.interne => ("interne")
     | EmployeeType.externe => ("externe")) ++
    ("</p>\n            <p style=\"font-size: ") ++ st.fontSize ++
    ("; color: #6b7280; margin-bottom: ") ++ st.lineMargin ++
    ("; word-wrap: break-word;\"><strong>") ++ t ("chauffeurs.vehicleType") ++
    (":</strong> ") ++ c.vehicleType ++
    ("</p>\n            <p style=\"font-size: ") ++ st.fontSize ++
    ("; color: #6b7280; word-wrap: break-word;\"><strong>") ++ t ("chauffeurs.phone") ++
    (":</strong> ") ++ String.intercalate (", ") c.phone ++
    ("</p>\n          </div>\n        ")

/-- popupOptionsFor embeds the options object passed to `bindPopup`
(identical for both marker kinds). -/
def popupOptionsFor (isMobile : Bool) : PopupOptions where
  maxWidth := if isMobile then 320 else 250
  closeButton := true
  autoClose := false
  autoPan := true
  offset := (0, -10)
  className := ("custom-popup")

/-- warehouseKey builds the composite cache key of a warehouse id. -/
def warehouseKey (id : String) : String := ("warehouse-") ++ id

/-- chauffeurKey builds the composite cache key of a chauffeur id. -/
def chauffeurKey (id : String) : String := ("chauffeur-") ++ id

/-- buildWarehouseMarker embeds the marker-construction block of the
warehouse branch: position, display-mode icon, popup content with the
outbound link, popup options, click handler. -/
def buildWarehouseMarker (opts : CreateMarkersOptions) (uid : Nat)
    (w : Warehouse) : Marker where
  uid := uid
  pos := w.coordinates
  icon := if opts.isMobile then Icon.warehouseIcon else Icon.desktopWarehouseIcon
  popup := warehousePopupContent (popupStyle opts.isMobile) opts.t w
    (createGoogleMapsLink w.coordinates.1 w.coordinates.2 w.name)
  popupOptions := popupOptionsFor opts.isMobile
  handler := ClickHandler.onWarehouse w opts.onWarehouseClick

/-- buildChauffeurMarker embeds the marker-construction block of the
chauffeur branch, for a chauffeur whose coordinates are `pos`. -/
def buildChauffeurMarker (opts : CreateMarkersOptions) (uid : Nat)
    (c : Chauffeur) (pos : ℚ × ℚ) : Marker where
  uid := uid
  pos := pos
  icon := if opts.isMobile then Icon.chauffeurIcon else Icon.desktopChauffeurIcon
  popup := chauffeurPopupContent (popupStyle opts.isMobile) opts.t c
    (match c.employeeType with
     | EmployeeType.externe => ("TP - ") ++ c.fullName
     | EmployeeType.interne => c.fullName)
  popupOptions := popupOptionsFor opts.isMobile
  handler := ClickHandler.onChauffeur c opts.onChauffeurClick

/-- PassState is the running state of one `createMarkers` pass: the
persistent state plus the `markers` array being returned, the
`currentMarkerIds` set, and the event log. -/
structure PassState where
  cache : Cache
  layers : List Nat
  nextUid : Nat
  currentIds : List String
  markers : List Marker
  events : List Event
deriving Repr

/-- attachIfAbsent embeds `if (!map.hasLayer(marker)) marker.addTo(map)`,
returning the updated layers and event log. -/
def attachIfAbsent (layers : List Nat) (events : List Event) (uid : Nat) :
    List Nat × List Event :=
  if layers.contains uid then (layers, events)
  else (layers ++ [uid], events ++ [Event.attached uid])

/-- warehouseStep embeds one iteration of the `warehouses.forEach` loop. -/
def warehouseStep (opts : CreateMarkersOptions) (ps : PassState)
    (w : Warehouse) : PassState :=
  let markerId := warehouseKey w.id
  let ids := setAdd ps.currentIds markerId
  match cacheGet ps.cache markerId with
  | some m =>
    let la := attachIfAbsent ps.layers ps.events m.uid
    { ps with
      currentIds := ids
      layers := la.1
      events := la.2
      markers := ps.markers ++ [m] }
  | none =>
    let m := buildWarehouseMarker opts ps.nextUid w
    let cache := cacheSet ps.cache markerId m
    let la := attachIfAbsent ps.layers (ps.events ++ [Event.created m.uid]) m.uid
    { cache := cache
      layers := la.1
      nextUid := ps.nextUid + 1
      currentIds := ids
      markers := ps.markers ++ [m]
      events := la.2 }

/-- chauffeurStep embeds one iteration of the `chauffeurs.forEach` loop:
a chauffeur without coordinates is skipped outright. -/
def chauffeurStep (opts : CreateMarkersOptions) (ps : PassState)
    (c : Chauffeur) : PassState :=
  match c.coordinates with
  | none => ps
  | some pos =>
    let markerId := chauffeurKey c.id
    let ids := setAdd ps.currentIds markerId
    match cacheGet ps.cache markerId with
    | some m =>
      let la := attachIfAbsent ps.layers ps.events m.uid
      { ps with
        currentIds := ids
        layers := la.1
        events := la.2
        markers := ps.markers ++ [m] }
    | none =>
      let m := buildChauffeurMarker opts ps.nextUid c pos
      let cache := cacheSet ps.cache markerId m
      let la := attachIfAbsent ps.layers (ps.events ++ [Event.created m.uid]) m.uid
      { cache := cache
        layers := la.1
        nextUid := ps.nextUid + 1
        currentIds := ids
        markers := ps.markers ++ [m]
        events := la.2 }

/-- initPass starts a pass from the persistent state with an empty
markers array, id set and event log. -/
def initPass (st : SyncState) : PassState where
  cache := st.cache
  layers := st.layers
  nextUid := st.nextUid
  currentIds := []
  markers := []
  events := []

/-- removalPhase embeds the final `markerCache.forEach` sweep: every
cache entry whose key is not in `currentMarkerIds` is removed from the
map surface and deleted from the cache. -/
def removalPhase (ps : PassState) : PassState :=
  let removed := ps.cache.filter (fun p => !(ps.currentIds.contains p.1))
  { ps with
    cache := ps.cache.filter (fun p => ps.currentIds.contains p.1)
    layers := ps.layers.filter (fun uid => !(removed.any (fun p => p.2.uid == uid)))
    events := ps.events ++ removed.map (fun p => Event.detached p.2.uid) }

/-- SyncResult packages what one `createMarkers` call produces: the
returned markers array, the persistent state afterwards, and the log of
side effects. -/
structure SyncResult where
  returned : List Marker
  state : SyncState
  events : List Event
deriving Repr

/-- createMarkers embeds the exported `createMarkers` function: the
warehouse loop, the chauffeur loop, then the removal sweep. -/
def createMarkers (opts : CreateMarkersOptions) (st : SyncState) : SyncResult :=
  let ps := opts.chauffeurs.foldl (chauffeurStep opts)
    (opts.warehouses.foldl (warehouseStep opts) (initPass st))
  let ps := removalPhase ps
  { returned := ps.markers
    state := { cache := ps.cache, layers := ps.layers, nextUid := ps.nextUid }
    events := ps.events }

/-- passFold is the state after the two loops of a pass, before the
removal sweep. -/
def passFold (opts : CreateMarkersOptions) (st : SyncState) : PassState :=
  opts.chauffeurs.foldl (chauffeurStep opts)
    (opts.warehouses.foldl (warehouseStep opts) (initPass st))

/-- targetKeys is the set of composite keys the inputs qualify for:
every warehouse, and every chauffeur with a coordinate (the contents of
`currentMarkerIds` at the end of the loops). -/
def targetKeys (opts : CreateMarkersOptions) : List String :=
  opts.warehouses.map (fun w => warehouseKey w.id) ++
    (opts.chauffeurs.filter (fun c => c.coordinates.isSome)).map
      (fun c => chauffeurKey c.id)

/-- WellFormed states the JavaScript-runtime invariants of the
persistent state: the cache has no duplicate keys (it is a `Map`),
distinct entries are distinct marker objects (no duplicate uids), and
every cached uid was allocated before `nextUid`. -/
def WellFormed (st : SyncState) : Prop :=
  (st.cache.map Prod.fst).Nodup ∧
    (st.cache.map (fun p => p.2.uid)).Nodup ∧
    ∀ p ∈ st.cache, p.2.uid < st.nextUid

/-- PassInv is the invariant a pass maintains: no duplicate cache keys,
no duplicate marker identities, every cached identity allocated below
the counter, and every key of the `currentMarkerIds` set cached with its
marker attached to the map surface. -/
def PassInv (ps : PassState) : Prop :=
  (ps.cache.map Prod.fst).Nodup ∧
    (ps.cache.map (fun p => p.2.uid)).Nodup ∧
    (∀ p ∈ ps.cache, p.2.uid < ps.nextUid) ∧
    ∀ k ∈ ps.currentIds, ∃ m, cacheGet ps.cache k = some m ∧ m.uid ∈ ps.layers

/-- MapCamera is the camera part of the Leaflet map surface: its center
and its current zoom level. -/
structure MapCamera where
  center : ℚ × ℚ
  zoom : ℚ
deriving DecidableEq, Repr

/-- Bounds is a geographic bounding box (`LatLngBounds`). -/
structure Bounds where
  south : ℚ
  west : ℚ
  north : ℚ
  east : ℚ
deriving DecidableEq, Repr

/-- pointBounds is the degenerate box of one point `(lat, lng)`. -/
def pointBounds (p : ℚ × ℚ) : Bounds where
  south := p.1
  west := p.2
  north := p.1
  east := p.2

/-- extendBounds grows a box to include one more point. -/
def extendBounds (b : Bounds) (p : ℚ × ℚ) : Bounds where
  south := min b.south p.1
  west := min b.west p.2
  north := max b.north p.1
  east := max b.east p.2

/-- boundsContains states that a box contains a point. -/
def boundsContains (b : Bounds) (p : ℚ × ℚ) : Prop :=
  b.south ≤ p.1 ∧ p.1 ≤ b.north ∧ b.west ≤ p.2 ∧ p.2 ≤ b.east

/-- boundsOfCons is the bounding box of a nonempty list of points, the
way `L.featureGroup(markers).getBounds()` accumulates it. -/
def boundsOfCons (p : ℚ × ℚ) (ps : List (ℚ × ℚ)) : Bounds :=
  ps.foldl extendBounds (pointBounds p)

/-- markerBounds is the bounding box of the positions of a marker list,
`none` for the empty list. -/
def markerBounds : List Marker → Option Bounds
  | [] => none
  | m :: ms => some (boundsOfCons m.pos (ms.map (fun x => x.pos)))

/-- CameraOp is one camera mutation issued to the map surface. -/
inductive CameraOp where
  | fitBounds (b : Bounds) (padX : ℚ) (padY : ℚ) (maxZoom : ℚ)
  | setView (center : ℚ × ℚ) (zoom : ℚ)
deriving DecidableEq, Repr

/-- boundsCenter is the center point of a box. -/
def boundsCenter (b : Bounds) : ℚ × ℚ :=
  ((b.south + b.north) / 2, (b.west + b.east) / 2)

/-- applyCameraOp gives the meaning of a camera operation: `setView`
sets center and zoom directly; `fitBounds` centers on the box and takes
the renderer-computed fit zoom `fitZoom`, capped at the `maxZoom`
option. -/
def applyCameraOp (op : CameraOp) (fitZoom : ℚ) : MapCamera :=
  match op with
  | CameraOp.fitBounds b _ _ maxZoom =>
    { center := boundsCenter b, zoom := min fitZoom maxZoom }
  | CameraOp.setView c z => { center := c, zoom := z }

/-- fitMapToMarkers embeds the exported `fitMapToMarkers` function as
the list of camera operations it issues (empty when it leaves the
viewport alone); `camera.zoom` is what `map.getZoom()` returns. -/
def fitMapToMarkers (camera : MapCamera) (markers : List Marker)
    (forceRefresh : Bool) : List CameraOp :=
  if 0 < markers.length ∧ forceRefresh = true then
    match markerBounds markers with
    | some bounds => [CameraOp.fitBounds bounds 20 20 15]
    | none => []
  else if 0 < markers.length then
    let currentZoom := camera.zoom
    let defaultZoom : ℚ := 6
    if |currentZoom - defaultZoom| < 1 then
      match markerBounds markers with
      | some bounds => [CameraOp.fitBounds bounds 20 20 15]
      | none => []
    else []
  else
    [CameraOp.setView (28.0339, 1.6596) 6]

/-- sampleWarehouse is a concrete warehouse record used in witnesses. -/
def sampleWarehouse : Warehouse where
  id := ("w1")
  name := ("Depot A")
  companyId := ("c1")
  companyName := ("ACME")
  phone := [("021")]
  address := ("Rue 1")
  coordinates := (10, 10)
  createdAt := ("2024-01-01")

/-- sampleChauffeur is a concrete chauffeur with a coordinate. -/
def sampleChauffeur : Chauffeur where
  id := ("d1")
  firstName := ("Ali")
  lastName := ("B")
  fullName := ("Ali B")
  username := ("ali")
  password := ("pw")
  phone := [("055")]
  vehicleType := ("camion")
  employeeType := EmployeeType.externe
  isActive := true
  createdAt := ("2024-01-02")
  coordinates := some (20, 20)

/-- sampleChauffeurNoCoord is a concrete chauffeur without a coordinate. -/
def sampleChauffeurNoCoord : Chauffeur :=
  { sampleChauffeur with id := ("d2"), coordinates := none }

/-- sampleOpts is a concrete options record used in witnesses. -/
def sampleOpts : CreateMarkersOptions where
  warehouses := [sampleWarehouse]
  chauffeurs := [sampleChauffeur, sampleChauffeurNoCoord]
  t := fun k => k
  onWarehouseClick := true
  onChauffeurClick := false
  isMobile := false

/-- sampleOptsNoChauffeurs drops every chauffeur from `sampleOpts`. -/
def sampleOptsNoChauffeurs : CreateMarkersOptions :=
  { sampleOpts with chauffeurs := [] }

/-- emptyState is the pristine persistent state. -/
def emptyState : SyncState where
  cache := []
  layers := []
  nextUid := 0

/-- sampleStateAfter is the persistent state after one pass of
`createMarkers` on the sample inputs from the pristine state. -/
def sampleStateAfter : SyncState :=
  (createMarkers sampleOpts emptyState).state

/-- sampleCamera6 is a camera sitting at the default zoom. -/
def sampleCamera6 : MapCamera where
  center := (0, 0)
  zoom := 6

/-- sampleCamera10 is a camera the user has zoomed to level 10. -/
def sampleCamera10 : MapCamera where
  center := (0, 0)
  zoom := 10

/-- sampleMarkerA is the marker built for `sampleWarehouse` with uid 0. -/
def sampleMarkerA : Marker :=
  buildWarehouseMarker sampleOpts 0 sampleWarehouse

/-- sampleMarkerB is the marker built for `sampleChauffeur` with uid 1. -/
def sampleMarkerB : Marker :=
  buildChauffeurMarker sampleOpts 1 sampleChauffeur (20, 20)

/-! Basic lemmas about the cache, the id set and the attach helper. -/

theorem cacheGet_eq_none_iff (c : Cache) (k : String) :
    cacheGet c k = none ↔ ∀ p ∈ c, p.1 ≠ k := by
  constructor
  · intro h p hp hk
    unfold cacheGet at h
    cases hfind : c.find? (fun p => p.1 == k) with
    | some q => rw [hfind] at h; cases h
    | none =>
      have := List.find?_eq_none.mp hfind p hp
      simp [hk] at this
  · intro h
    unfold cacheGet
    have hfind : c.find? (fun p => p.1 == k) = none :=
      List.find?_eq_none.mpr (fun p hp => by simp [h p hp])
    rw [hfind]

theorem cacheGet_isSome_iff (c : Cache) (k : String) :
    (cacheGet c k).isSome = true ↔ ∃ p ∈ c, p.1 = k := by
  unfold cacheGet
  cases hfind : c.find? (fun p => p.1 == k) with
  | some q =>
    simp only [Option.isSome_some, true_iff]
    exact ⟨q, List.mem_of_find?_eq_some hfind, by simpa using List.find?_some hfind⟩
  | none =>
    simp only [Option.isSome_none]
    constructor
    · intro hfalse
      simp at hfalse
    · rintro ⟨p, hp, hk⟩
      have := List.find?_eq_none.mp hfind p hp
      simp [hk] at this

theorem cacheGet_mem (c : Cache) (k : String) (m : Marker)
    (h : cacheGet c k = some m) : (k, m) ∈ c := by
  unfold cacheGet at h
  cases hfind : c.find? (fun p => p.1 == k) with
  | some q =>
    rw [hfind] at h
    have hq := List.mem_of_find?_eq_some hfind
    have hk : q.1 = k := by simpa using List.find?_some hfind
    have hm : q.2 = m := by injection h
    have : q = (k, m) := Prod.ext hk hm
    rw [← this]
    exact hq
  | none => rw [hfind] at h; cases h

theorem mem_key_isSome (c : Cache) (p : String × Marker) (hp : p ∈ c) :
    (cacheGet c p.1).isSome = true :=
  (cacheGet_isSome_iff c p.1).mpr ⟨p, hp, rfl⟩

theorem cacheGet_append_some (c₁ c₂ : Cache) (k : String) (m : Marker)
    (h : cacheGet c₁ k = some m) : cacheGet (c₁ ++ c₂) k = some m := by
  unfold cacheGet at h ⊢
  rw [List.find?_append]
  cases hfind : c₁.find? (fun p => p.1 == k) with
  | some q => rw [hfind] at h; simpa using h
  | none => rw [hfind] at h; cases h

theorem cacheGet_append_none (c₁ c₂ : Cache) (k : String)
    (h : cacheGet c₁ k = none) : cacheGet (c₁ ++ c₂) k = cacheGet c₂ k := by
  unfold cacheGet at h ⊢
  rw [List.find?_append]
  cases hfind : c₁.find? (fun p => p.1 == k) with
  | some q => rw [hfind] at h; cases h
  | none => simp

theorem cacheGet_singleton_self (k : String) (m : Marker) :
    cacheGet [(k, m)] k = some m := by
  simp [cacheGet, List.find?]

theorem cacheGet_singleton_ne (k a : String) (m : Marker) (h : a ≠ k) :
    cacheGet [(k, m)] a = none := by
  have hb : (k == a) = false := by
    simp [Ne.symm h]
  simp [cacheGet, List.find?, hb]

theorem cacheSet_of_none (c : Cache) (k : String) (m : Marker)
    (h : cacheGet c k = none) : cacheSet c k m = c ++ [(k, m)] := by
  have hfind : c.find? (fun p => p.1 == k) = none := by
    unfold cacheGet at h
    cases hf : c.find? (fun p => p.1 == k) with
    | some q => rw [hf] at h; cases h
    | none => rfl
  simp [cacheSet, hfind]

theorem warehouseKey_ne_chauffeurKey (a b : String) :
    warehouseKey a ≠ chauffeurKey b := by
  intro h
  have h2 : (warehouseKey a).data = (chauffeurKey b).data := by rw [h]
  unfold warehouseKey chauffeurKey at h2
  rw [String.data_append, String.data_append] at h2
  rw [show ("warehouse-").data = ['w','a','r','e','h','o','u','s','e','-'] from rfl] at h2
  rw [show ("chauffeur-").data = ['c','h','a','u','f','f','e','u','r','-'] from rfl] at h2
  simp at h2

theorem chauffeurKey_inj (a b : String) (h : chauffeurKey a = chauffeurKey b) :
    a = b := by
  unfold chauffeurKey at h
  have h2 : (("chauffeur-") ++ a).data = (("chauffeur-") ++ b).data := by rw [h]
  rw [String.data_append, String.data_append] at h2
  exact String.ext (List.append_cancel_left h2)

theorem mem_setAdd (s : List String) (k a : String) :
    a ∈ setAdd s k ↔ a ∈ s ∨ a = k := by
  unfold setAdd
  cases hc : s.contains k with
  | true =>
    have hk : k ∈ s := List.elem_iff.mp hc
    simp only [if_pos rfl]
    constructor
    · exact Or.inl
    · rintro (h' | rfl)
      · exact h'
      · exact hk
  | false =>
    simp [List.mem_append]

theorem attachIfAbsent_mem_self (layers : List Nat) (events : List Event) (uid : Nat) :
    uid ∈ (attachIfAbsent layers events uid).1 := by
  unfold attachIfAbsent
  cases hc : layers.contains uid with
  | true =>
    simp only [if_pos rfl]
    exact List.elem_iff.mp hc
  | false =>
    simp [List.mem_append]

theorem attachIfAbsent_mono (layers : List Nat) (events : List Event) (u x : Nat)
    (hx : x ∈ layers) : x ∈ (attachIfAbsent layers events u).1 := by
  unfold attachIfAbsent
  cases hc : layers.contains u with
  | true => simpa using hx
  | false => simp [List.mem_append, hx]

theorem attachIfAbsent_of_mem (layers : List Nat) (events : List Event) (u : Nat)
    (h : u ∈ layers) : attachIfAbsent layers events u = (layers, events) := by
  have hc : layers.contains u = true := List.elem_iff.mpr h
  simp only [attachIfAbsent, hc, if_pos]

/-! Lemmas about one iteration of the warehouse loop. -/

theorem warehouseStep_cache_hit (opts : CreateMarkersOptions) (ps : PassState)
    (w : Warehouse) (m : Marker) (h : cacheGet ps.cache (warehouseKey w.id) = some m) :
    (warehouseStep opts ps w).cache = ps.cache := by
  simp [warehouseStep, h]

theorem warehouseStep_cache_miss (opts : CreateMarkersOptions) (ps : PassState)
    (w : Warehouse) (h : cacheGet ps.cache (warehouseKey w.id) = none) :
    (warehouseStep opts ps w).cache =
      ps.cache ++ [(warehouseKey w.id, buildWarehouseMarker opts ps.nextUid w)] := by
  simp [warehouseStep, h, cacheSet_of_none _ _ _ h]

theorem warehouseStep_currentIds (opts : CreateMarkersOptions) (ps : PassState)
    (w : Warehouse) :
    (warehouseStep opts ps w).currentIds = setAdd ps.currentIds (warehouseKey w.id) := by
  cases h : cacheGet ps.cache (warehouseKey w.id) with
  | some m => simp [warehouseStep, h]
  | none => simp [warehouseStep, h]

theorem warehouseStep_markers (opts : CreateMarkersOptions) (ps : PassState)
    (w : Warehouse) :
    ∃ m, (warehouseStep opts ps w).markers = ps.markers ++ [m] ∧
      cacheGet (warehouseStep opts ps w).cache (warehouseKey w.id) = some m := by
  cases h : cacheGet ps.cache (warehouseKey w.id) with
  | some m =>
    refine ⟨m, ?_, ?_⟩
    · simp [warehouseStep, h]
    · rw [warehouseStep_cache_hit opts ps w m h]; exact h
  | none =>
    refine ⟨buildWarehouseMarker opts ps.nextUid w, ?_, ?_⟩
    · simp [warehouseStep, h]
    · rw [warehouseStep_cache_miss opts ps w h]
      rw [cacheGet_append_none _ _ _ h]
      exact cacheGet_singleton_self _ _

theorem warehouseStep_cacheGet_stable (opts : CreateMarkersOptions) (ps : PassState)
    (w : Warehouse) (k : String) (m : Marker) (h : cacheGet ps.cache k = some m) :
    cacheGet (warehouseStep opts ps w).cache k = some m := by
  cases hget : cacheGet ps.cache (warehouseKey w.id) with
  | some m' => rw [warehouseStep_cache_hit opts ps w m' hget]; exact h
  | none =>
    rw [warehouseStep_cache_miss opts ps w hget]
    exact cacheGet_append_some _ _ _ _ h

theorem warehouseStep_cacheGet_ne (opts : CreateMarkersOptions) (ps : PassState)
    (w : Warehouse) (k : String) (hk : k ≠ warehouseKey w.id) :
    cacheGet (warehouseStep opts ps w).cache k = cacheGet ps.cache k := by
  cases hget : cacheGet ps.cache (warehouseKey w.id) with
  | some m' => rw [warehouseStep_cache_hit opts ps w m' hget]
  | none =>
    rw [warehouseStep_cache_miss opts ps w hget]
    cases h : cacheGet ps.cache k with
    | some m => exact cacheGet_append_some _ _ _ _ h
    | none =>
      rw [cacheGet_append_none _ _ _ h]
      exact cacheGet_singleton_ne _ _ _ hk

theorem warehouseStep_isSome (opts : CreateMarkersOptions) (ps : PassState)
    (w : Warehouse) (k : String) :
    (cacheGet (warehouseStep opts ps w).cache k).isSome = true ↔
      (cacheGet ps.cache k).isSome = true ∨ k = warehouseKey w.id := by
  by_cases hk : k = warehouseKey w.id
  · subst hk
    obtain ⟨m, _, hm⟩ := warehouseStep_markers opts ps w
    simp [hm]
  · rw [warehouseStep_cacheGet_ne opts ps w k hk]
    simp [hk]

theorem warehouseStep_layers_mono (opts : CreateMarkersOptions) (ps : PassState)
    (w : Warehouse) (x : Nat) (hx : x ∈ ps.layers) :
    x ∈ (warehouseStep opts ps w).layers := by
  cases h : cacheGet ps.cache (warehouseKey w.id) with
  | some m =>
    have : (warehouseStep opts ps w).layers = (attachIfAbsent ps.layers ps.events m.uid).1 := by
      simp [warehouseStep, h]
    rw [this]
    exact attachIfAbsent_mono _ _ _ _ hx
  | none =>
    have : (warehouseStep opts ps w).layers =
        (attachIfAbsent ps.layers (ps.events ++ [Event.created ps.nextUid])
          (buildWarehouseMarker opts ps.nextUid w).uid).1 := by
      simp [warehouseStep, h, buildWarehouseMarker]
    rw [this]
    exact attachIfAbsent_mono _ _ _ _ hx

theorem warehouseStep_nextUid_ge (opts : CreateMarkersOptions) (ps : PassState)
    (w : Warehouse) : ps.nextUid ≤ (warehouseStep opts ps w).nextUid := by
  cases h : cacheGet ps.cache (warehouseKey w.id) with
  | some m => simp [warehouseStep, h]
  | none => simp [warehouseStep, h]

theorem warehouseStep_entries (opts : CreateMarkersOptions) (ps : PassState)
    (w : Warehouse) (p : String × Marker) (hp : p ∈ (warehouseStep opts ps w).cache) :
    p ∈ ps.cache ∨ ∃ u, p = (warehouseKey w.id, buildWarehouseMarker opts u w) := by
  cases h : cacheGet ps.cache (warehouseKey w.id) with
  | some m =>
    rw [warehouseStep_cache_hit opts ps w m h] at hp
    exact Or.inl hp
  | none =>
    rw [warehouseStep_cache_miss opts ps w h] at hp
    rcases List.mem_append.mp hp with h' | h'
    · exact Or.inl h'
    · right
      exact ⟨ps.nextUid, by simpa using h'⟩

theorem warehouseStep_inv (opts : CreateMarkersOptions) (ps : PassState)
    (w : Warehouse) (h : PassInv ps) : PassInv (warehouseStep opts ps w) := by
  obtain ⟨hkeys, huids, hbound, hatt⟩ := h
  cases hget : cacheGet ps.cache (warehouseKey w.id) with
  | some m =>
    have hcache := warehouseStep_cache_hit opts ps w m hget
    have hnext : (warehouseStep opts ps w).nextUid = ps.nextUid := by
      simp [warehouseStep, hget]
    have hlay : (warehouseStep opts ps w).layers =
        (attachIfAbsent ps.layers ps.events m.uid).1 := by
      simp [warehouseStep, hget]
    refine ⟨?_, ?_, ?_, ?_⟩
    · rw [hcache]; exact hkeys
    · rw [hcache]; exact huids
    · rw [hcache, hnext]; exact hbound
    · intro k hk
      rw [warehouseStep_currentIds, mem_setAdd] at hk
      rw [hcache, hlay]
      cases hk with
      | inl hk =>
        obtain ⟨m', hm', hl'⟩ := hatt k hk
        exact ⟨m', hm', attachIfAbsent_mono _ _ _ _ hl'⟩
      | inr hk =>
        rw [hk]
        exact ⟨m, hget, attachIfAbsent_mem_self _ _ _⟩
  | none =>
    have hcache := warehouseStep_cache_miss opts ps w hget
    have hnext : (warehouseStep opts ps w).nextUid = ps.nextUid + 1 := by
      simp [warehouseStep, hget]
    have hlay : (warehouseStep opts ps w).layers =
        (attachIfAbsent ps.layers (ps.events ++ [Event.created ps.nextUid])
          (buildWarehouseMarker opts ps.nextUid w).uid).1 := by
      simp [warehouseStep, hget, buildWarehouseMarker]
    have hkey_not : warehouseKey w.id ∉ ps.cache.map Prod.fst := by
      intro hmem
      obtain ⟨p, hp, hpk⟩ := List.mem_map.mp hmem
      exact (cacheGet_eq_none_iff _ _).mp hget p hp hpk
    have huid_not : ps.nextUid ∉ ps.cache.map (fun p => p.2.uid) := by
      intro hmem
      obtain ⟨p, hp, hpu⟩ := List.mem_map.mp hmem
      exact Nat.ne_of_lt (hbound p hp) hpu
    refine ⟨?_, ?_, ?_, ?_⟩
    · rw [hcache]
      simp only [List.map_append, List.map_cons, List.map_nil]
      rw [List.nodup_append]
      refine ⟨hkeys, List.nodup_singleton _, ?_⟩
      intro a ha hb
      simp at hb
      rw [hb] at ha
      exact hkey_not ha
    · rw [hcache]
      simp only [List.map_append, List.map_cons, List.map_nil]
      rw [List.nodup_append]
      refine ⟨huids, List.nodup_singleton _, ?_⟩
      intro a ha hb
      simp [buildWarehouseMarker] at hb
      rw [hb] at ha
      exact huid_not ha
    · rw [hcache, hnext]
      intro p hp
      rcases List.mem_append.mp hp with h' | h'
      · exact Nat.lt_trans (hbound p h') (Nat.lt_succ_self _)
      · simp at h'
        rw [h']
        simp [buildWarehouseMarker]
    · intro k hk
      rw [warehouseStep_currentIds, mem_setAdd] at hk
      rw [hcache, hlay]
      cases hk with
      | inl hk =>
        obtain ⟨m', hm', hl'⟩ := hatt k hk
        exact ⟨m', cacheGet_append_some _ _ _ _ hm', attachIfAbsent_mono _ _ _ _ hl'⟩
      | inr hk =>
        rw [hk]
        refine ⟨buildWarehouseMarker opts ps.nextUid w, ?_, attachIfAbsent_mem_self _ _ _⟩
        rw [cacheGet_append_none _ _ _ hget]
        exact cacheGet_singleton_self _ _

theorem warehouseStep_inert (opts : CreateMarkersOptions) (ps : PassState)
    (w : Warehouse) (m : Marker)
    (h1 : cacheGet ps.cache (warehouseKey w.id) = some m)
    (h2 : m.uid ∈ ps.layers) :
    warehouseStep opts ps w =
      { ps with
        currentIds := setAdd ps.currentIds (warehouseKey w.id)
        markers := ps.markers ++ [m] } := by
  simp [warehouseStep, h1, attachIfAbsent_of_mem _ _ _ h2]

/-! Lemmas about one iteration of the chauffeur loop. -/

theorem chauffeurStep_skip (opts : CreateMarkersOptions) (ps : PassState)
    (c : Chauffeur) (h : c.coordinates = none) : chauffeurStep opts ps c = ps := by
  simp [chauffeurStep, h]

theorem chauffeurStep_cache_hit (opts : CreateMarkersOptions) (ps : PassState)
    (c : Chauffeur) (pos : ℚ × ℚ) (m : Marker) (hc : c.coordinates = some pos)
    (h : cacheGet ps.cache (chauffeurKey c.id) = some m) :
    (chauffeurStep opts ps c).cache = ps.cache := by
  simp [chauffeurStep, hc, h]

theorem chauffeurStep_cache_miss (opts : CreateMarkersOptions) (ps : PassState)
    (c : Chauffeur) (pos : ℚ × ℚ) (hc : c.coordinates = some pos)
    (h : cacheGet ps.cache (chauffeurKey c.id) = none) :
    (chauffeurStep opts ps c).cache =
      ps.cache ++ [(chauffeurKey c.id, buildChauffeurMarker opts ps.nextUid c pos)] := by
  simp [chauffeurStep, hc, h, cacheSet_of_none _ _ _ h]

theorem chauffeurStep_currentIds (opts : CreateMarkersOptions) (ps : PassState)
    (c : Chauffeur) (pos : ℚ × ℚ) (hc : c.coordinates = some pos) :
    (chauffeurStep opts ps c).currentIds = setAdd ps.currentIds (chauffeurKey c.id) := by
  cases h : cacheGet ps.cache (chauffeurKey c.id) with
  | some m => simp [chauffeurStep, hc, h]
  | none => simp [chauffeurStep, hc, h]

theorem chauffeurStep_markers (opts : CreateMarkersOptions) (ps : PassState)
    (c : Chauffeur) (pos : ℚ × ℚ) (hc : c.coordinates = some pos) :
    ∃ m, (chauffeurStep opts ps c).markers = ps.markers ++ [m] ∧
      cacheGet (chauffeurStep opts ps c).cache (chauffeurKey c.id) = some m := by
  cases h : cacheGet ps.cache (chauffeurKey c.id) with
  | some m =>
    refine ⟨m, ?_, ?_⟩
    · simp [chauffeurStep, hc, h]
    · rw [chauffeurStep_cache_hit opts ps c pos m hc h]; exact h
  | none =>
    refine ⟨buildChauffeurMarker opts ps.nextUid c pos, ?_, ?_⟩
    · simp [chauffeurStep, hc, h]
    · rw [chauffeurStep_cache_miss opts ps c pos hc h]
      rw [cacheGet_append_none _ _ _ h]
      exact cacheGet_singleton_self _ _

theorem chauffeurStep_cacheGet_stable (opts : CreateMarkersOptions) (ps : PassState)
    (c : Chauffeur) (k : String) (m : Marker) (h : cacheGet ps.cache k = some m) :
    cacheGet (chauffeurStep opts ps c).cache k = some m := by
  cases hc : c.coordinates with
  | none => rw [chauffeurStep_skip opts ps c hc]; exact h
  | some pos =>
    cases hget : cacheGet ps.cache (chauffeurKey c.id) with
    | some m' => rw [chauffeurStep_cache_hit opts ps c pos m' hc hget]; exact h
    | none =>
      rw [chauffeurStep_cache_miss opts ps c pos hc hget]
      exact cacheGet_append_some _ _ _ _ h

theorem chauffeurStep_cacheGet_ne (opts : CreateMarkersOptions) (ps : PassState)
    (c : Chauffeur) (k : String)
    (hk : c.coordinates.isSome = true → k ≠ chauffeurKey c.id) :
    cacheGet (chauffeurStep opts ps c).cache k = cacheGet ps.cache k := by
  cases hc : c.coordinates with
  | none => rw [chauffeurStep_skip opts ps c hc]
  | some pos =>
    have hk : k ≠ chauffeurKey c.id := hk (by simp [hc])
    cases hget : cacheGet ps.cache (chauffeurKey c.id) with
    | some m' => rw [chauffeurStep_cache_hit opts ps c pos m' hc hget]
    | none =>
      rw [chauffeurStep_cache_miss opts ps c pos hc hget]
      cases h : cacheGet ps.cache k with
      | some m => exact cacheGet_append_some _ _ _ _ h
      | none =>
        rw [cacheGet_append_none _ _ _ h]
        exact cacheGet_singleton_ne _ _ _ hk

theorem chauffeurStep_isSome (opts : CreateMarkersOptions) (ps : PassState)
    (c : Chauffeur) (k : String) :
    (cacheGet (chauffeurStep opts ps c).cache k).isSome = true ↔
      (cacheGet ps.cache k).isSome = true ∨
        (c.coordinates.isSome = true ∧ k = chauffeurKey c.id) := by
  cases hc : c.coordinates with
  | none =>
    rw [chauffeurStep_skip opts ps c hc]
    simp
  | some pos =>
    by_cases hk : k = chauffeurKey c.id
    · subst hk
      obtain ⟨m, _, hm⟩ := chauffeurStep_markers opts ps c pos hc
      simp [hm]
    · rw [chauffeurStep_cacheGet_ne opts ps c k (fun _ => hk)]
      simp [hk]

theorem chauffeurStep_layers_mono (opts : CreateMarkersOptions) (ps : PassState)
    (c : Chauffeur) (x : Nat) (hx : x ∈ ps.layers) :
    x ∈ (chauffeurStep opts ps c).layers := by
  cases hc : c.coordinates with
  | none => rw [chauffeurStep_skip opts ps c hc]; exact hx
  | some pos =>
    cases h : cacheGet ps.cache (chauffeurKey c.id) with
    | some m =>
      have : (chauffeurStep opts ps c).layers = (attachIfAbsent ps.layers ps.events m.uid).1 := by
        simp [chauffeurStep, hc, h]
      rw [this]
      exact attachIfAbsent_mono _ _ _ _ hx
    | none =>
      have : (chauffeurStep opts ps c).layers =
          (attachIfAbsent ps.layers (ps.events ++ [Event.created ps.nextUid])
            (buildChauffeurMarker opts ps.nextUid c pos).uid).1 := by
        simp [chauffeurStep, hc, h, buildChauffeurMarker]
      rw [this]
      exact attachIfAbsent_mono _ _ _ _ hx

theorem chauffeurStep_entries (opts : CreateMarkersOptions) (ps : PassState)
    (c : Chauffeur) (p : String × Marker) (hp : p ∈ (chauffeurStep opts ps c).cache) :
    p ∈ ps.cache ∨ ∃ u pos, c.coordinates = some pos ∧
      p = (chauffeurKey c.id, buildChauffeurMarker opts u c pos) := by
  cases hc : c.coordinates with
  | none =>
    rw [chauffeurStep_skip opts ps c hc] at hp
    exact Or.inl hp
  | some pos =>
    cases h : cacheGet ps.cache (chauffeurKey c.id) with
    | some m =>
      rw [chauffeurStep_cache_hit opts ps c pos m hc h] at hp
      exact Or.inl hp
    | none =>
      rw [chauffeurStep_cache_miss opts ps c pos hc h] at hp
      rcases List.mem_append.mp hp with h' | h'
      · exact Or.inl h'
      · right
        exact ⟨ps.nextUid, pos, rfl, by simpa using h'⟩

theorem chauffeurStep_inv (opts : CreateMarkersOptions) (ps : PassState)
    (c : Chauffeur) (h : PassInv ps) : PassInv (chauffeurStep opts ps c) := by
  obtain ⟨hkeys, huids, hbound, hatt⟩ := h
  cases hc : c.coordinates with
  | none => rw [chauffeurStep_skip opts ps c hc]; exact ⟨hkeys, huids, hbound, hatt⟩
  | some pos =>
    cases hget : cacheGet ps.cache (chauffeurKey c.id) with
    | some m =>
      have hcache := chauffeurStep_cache_hit opts ps c pos m hc hget
      have hnext : (chauffeurStep opts ps c).nextUid = ps.nextUid := by
        simp [chauffeurStep, hc, hget]
      have hlay : (chauffeurStep opts ps c).layers =
          (attachIfAbsent ps.layers ps.events m.uid).1 := by
        simp [chauffeurStep, hc, hget]
      refine ⟨?_, ?_, ?_, ?_⟩
      · rw [hcache]; exact hkeys
      · rw [hcache]; exact huids
      · rw [hcache, hnext]; exact hbound
      · intro k hk
        rw [chauffeurStep_currentIds opts ps c pos hc, mem_setAdd] at hk
        rw [hcache, hlay]
        cases hk with
        | inl hk =>
          obtain ⟨m', hm', hl'⟩ := hatt k hk
          exact ⟨m', hm', attachIfAbsent_mono _ _ _ _ hl'⟩
        | inr hk =>
          rw [hk]
          exact ⟨m, hget, attachIfAbsent_mem_self _ _ _⟩
    | none =>
      have hcache := chauffeurStep_cache_miss opts ps c pos hc hget
      have hnext : (chauffeurStep opts ps c).nextUid = ps.nextUid + 1 := by
        simp [chauffeurStep, hc, hget]
      have hlay : (chauffeurStep opts ps c).layers =
          (attachIfAbsent ps.layers (ps.events ++ [Event.created ps.nextUid])
            (buildChauffeurMarker opts ps.nextUid c pos).uid).1 := by
        simp [chauffeurStep, hc, hget, buildChauffeurMarker]
      have hkey_not : chauffeurKey c.id ∉ ps.cache.map Prod.fst := by
        intro hmem
        obtain ⟨p, hp, hpk⟩ := List.mem_map.mp hmem
        exact (cacheGet_eq_none_iff _ _).mp hget p hp hpk
      have huid_not : ps.nextUid ∉ ps.cache.map (fun p => p.2.uid) := by
        intro hmem
        obtain ⟨p, hp, hpu⟩ := List.mem_map.mp hmem
        exact Nat.ne_of_lt (hbound p hp) hpu
      refine ⟨?_, ?_, ?_, ?_⟩
      · rw [hcache]
        simp only [List.map_append, List.map_cons, List.map_nil]
        rw [List.nodup_append]
        refine ⟨hkeys, List.nodup_singleton _, ?_⟩
        intro a ha hb
        simp at hb
        rw [hb] at ha
        exact hkey_not ha
      · rw [hcache]
        simp only [List.map_append, List.map_cons, List.map_nil]
        rw [List.nodup_append]
        refine ⟨huids, List.nodup_singleton _, ?_⟩
        intro a ha hb
        simp [buildChauffeurMarker] at hb
        rw [hb] at ha
        exact huid_not ha
      · rw [hcache, hnext]
        intro p hp
        rcases List.mem_append.mp hp with h' | h'
        · exact Nat.lt_trans (hbound p h') (Nat.lt_succ_self _)
        · simp at h'
          rw [h']
          simp [buildChauffeurMarker]
      · intro k hk
        rw [chauffeurStep_currentIds opts ps c pos hc, mem_setAdd] at hk
        rw [hcache, hlay]
        cases hk with
        | inl hk =>
          obtain ⟨m', hm', hl'⟩ := hatt k hk
          exact ⟨m', cacheGet_append_some _ _ _ _ hm', attachIfAbsent_mono _ _ _ _ hl'⟩
        | inr hk =>
          rw [hk]
          refine ⟨buildChauffeurMarker opts ps.nextUid c pos, ?_, attachIfAbsent_mem_self _ _ _⟩
          rw [cacheGet_append_none _ _ _ hget]
          exact cacheGet_singleton_self _ _

theorem chauffeurStep_inert (opts : CreateMarkersOptions) (ps : PassState)
    (c : Chauffeur) (pos : ℚ × ℚ) (m : Marker)
    (hc : c.coordinates = some pos)
    (h1 : cacheGet ps.cache (chauffeurKey c.id) = some m)
    (h2 : m.uid ∈ ps.layers) :
    chauffeurStep opts ps c =
      { ps with
        currentIds := setAdd ps.currentIds (chauffeurKey c.id)
        markers := ps.markers ++ [m] } := by
  simp [chauffeurStep, hc, h1, attachIfAbsent_of_mem _ _ _ h2]

/-! Lemmas about the whole warehouse loop. -/

theorem foldW_cacheGet_stable (opts : CreateMarkersOptions) (l : List Warehouse)
    (ps : PassState) (k : String) (m : Marker) (h : cacheGet ps.cache k = some m) :
    cacheGet (l.foldl (warehouseStep opts) ps).cache k = some m := by
  induction l generalizing ps with
  | nil => exact h
  | cons w ws ih =>
    exact ih (warehouseStep opts ps w) (warehouseStep_cacheGet_stable opts ps w k m h)

theorem foldW_cacheGet_ne (opts : CreateMarkersOptions) (l : List Warehouse)
    (ps : PassState) (k : String) (h : ∀ w ∈ l, k ≠ warehouseKey w.id) :
    cacheGet (l.foldl (warehouseStep opts) ps).cache k = cacheGet ps.cache k := by
  induction l generalizing ps with
  | nil => rfl
  | cons w ws ih =>
    rw [List.foldl_cons, ih (warehouseStep opts ps w) (fun w' hw' => h w' (List.mem_cons_of_mem w hw')),
      warehouseStep_cacheGet_ne opts ps w k (h w (List.mem_cons_self w ws))]

theorem foldW_isSome (opts : CreateMarkersOptions) (l : List Warehouse)
    (ps : PassState) (k : String) :
    (cacheGet (l.foldl (warehouseStep opts) ps).cache k).isSome = true ↔
      (cacheGet ps.cache k).isSome = true ∨ ∃ w ∈ l, k = warehouseKey w.id := by
  induction l generalizing ps with
  | nil => simp
  | cons w ws ih =>
    rw [List.foldl_cons, ih (warehouseStep opts ps w), warehouseStep_isSome opts ps w k]
    constructor
    · rintro ((h | h) | ⟨w', hw', hk⟩)
      · exact Or.inl h
      · exact Or.inr ⟨w, List.mem_cons_self w ws, h⟩
      · exact Or.inr ⟨w', List.mem_cons_of_mem w hw', hk⟩
    · rintro (h | ⟨w', hw', hk⟩)
      · exact Or.inl (Or.inl h)
      · rcases List.mem_cons.mp hw' with rfl | hw'
        · exact Or.inl (Or.inr hk)
        · exact Or.inr ⟨w', hw', hk⟩

theorem foldW_currentIds (opts : CreateMarkersOptions) (l : List Warehouse)
    (ps : PassState) (k : String) :
    k ∈ (l.foldl (warehouseStep opts) ps).currentIds ↔
      k ∈ ps.currentIds ∨ ∃ w ∈ l, k = warehouseKey w.id := by
  induction l generalizing ps with
  | nil => simp
  | cons w ws ih =>
    rw [List.foldl_cons, ih (warehouseStep opts ps w), warehouseStep_currentIds, mem_setAdd]
    constructor
    · rintro ((h | h) | ⟨w', hw', hk⟩)
      · exact Or.inl h
      · exact Or.inr ⟨w, List.mem_cons_self w ws, h⟩
      · exact Or.inr ⟨w', List.mem_cons_of_mem w hw', hk⟩
    · rintro (h | ⟨w', hw', hk⟩)
      · exact Or.inl (Or.inl h)
      · rcases List.mem_cons.mp hw' with rfl | hw'
        · exact Or.inl (Or.inr hk)
        · exact Or.inr ⟨w', hw', hk⟩

theorem foldW_layers_mono (opts : CreateMarkersOptions) (l : List Warehouse)
    (ps : PassState) (x : Nat) (hx : x ∈ ps.layers) :
    x ∈ (l.foldl (warehouseStep opts) ps).layers := by
  induction l generalizing ps with
  | nil => exact hx
  | cons w ws ih =>
    exact ih (warehouseStep opts ps w) (warehouseStep_layers_mono opts ps w x hx)

theorem foldW_inv (opts : CreateMarkersOptions) (l : List Warehouse)
    (ps : PassState) (h : PassInv ps) : PassInv (l.foldl (warehouseStep opts) ps) := by
  induction l generalizing ps with
  | nil => exact h
  | cons w ws ih => exact ih (warehouseStep opts ps w) (warehouseStep_inv opts ps w h)

theorem foldW_entries (opts : CreateMarkersOptions) (l : List Warehouse)
    (ps : PassState) (p : String × Marker)
    (hp : p ∈ (l.foldl (warehouseStep opts) ps).cache) :
    p ∈ ps.cache ∨ ∃ w ∈ l, ∃ u, p = (warehouseKey w.id, buildWarehouseMarker opts u w) := by
  induction l generalizing ps with
  | nil => exact Or.inl hp
  | cons w ws ih =>
    rcases ih (warehouseStep opts ps w) hp with h | ⟨w', hw', u, hu⟩
    · rcases warehouseStep_entries opts ps w p h with h' | ⟨u, hu⟩
      · exact Or.inl h'
      · exact Or.inr ⟨w, List.mem_cons_self w ws, u, hu⟩
    · exact Or.inr ⟨w', List.mem_cons_of_mem w hw', u, hu⟩

theorem foldW_markers (opts : CreateMarkersOptions) (l : List Warehouse)
    (ps : PassState) :
    (l.foldl (warehouseStep opts) ps).markers.map some =
      ps.markers.map some ++
        l.map (fun w => cacheGet (l.foldl (warehouseStep opts) ps).cache (warehouseKey w.id)) := by
  induction l generalizing ps with
  | nil => simp
  | cons w ws ih =>
    obtain ⟨m, hmk, hget⟩ := warehouseStep_markers opts ps w
    have hfinal : cacheGet (ws.foldl (warehouseStep opts) (warehouseStep opts ps w)).cache
        (warehouseKey w.id) = some m :=
      foldW_cacheGet_stable opts ws (warehouseStep opts ps w) _ m hget
    rw [List.foldl_cons, ih (warehouseStep opts ps w), hmk, List.map_cons, hfinal]
    simp

theorem foldW_inert (opts : CreateMarkersOptions) (l : List Warehouse)
    (ps : PassState)
    (h : ∀ w ∈ l, ∃ m, cacheGet ps.cache (warehouseKey w.id) = some m ∧ m.uid ∈ ps.layers) :
    (l.foldl (warehouseStep opts) ps).cache = ps.cache ∧
      (l.foldl (warehouseStep opts) ps).layers = ps.layers ∧
      (l.foldl (warehouseStep opts) ps).nextUid = ps.nextUid ∧
      (l.foldl (warehouseStep opts) ps).events = ps.events := by
  induction l generalizing ps with
  | nil => exact ⟨rfl, rfl, rfl, rfl⟩
  | cons w ws ih =>
    obtain ⟨m, hm, hl⟩ := h w (List.mem_cons_self w ws)
    have hstep := warehouseStep_inert opts ps w m hm hl
    rw [List.foldl_cons, hstep]
    exact ih _ (fun w' hw' => h w' (List.mem_cons_of_mem w hw'))

/-! Lemmas about the whole chauffeur loop. -/

theorem foldC_cacheGet_stable (opts : CreateMarkersOptions) (l : List Chauffeur)
    (ps : PassState) (k : String) (m : Marker) (h : cacheGet ps.cache k = some m) :
    cacheGet (l.foldl (chauffeurStep opts) ps).cache k = some m := by
  induction l generalizing ps with
  | nil => exact h
  | cons c cs ih =>
    exact ih (chauffeurStep opts ps c) (chauffeurStep_cacheGet_stable opts ps c k m h)

theorem foldC_cacheGet_ne (opts : CreateMarkersOptions) (l : List Chauffeur)
    (ps : PassState) (k : String)
    (h : ∀ c ∈ l, c.coordinates.isSome = true → k ≠ chauffeurKey c.id) :
    cacheGet (l.foldl (chauffeurStep opts) ps).cache k = cacheGet ps.cache k := by
  induction l generalizing ps with
  | nil => rfl
  | cons c cs ih =>
    rw [List.foldl_cons, ih (chauffeurStep opts ps c) (fun c' hc' => h c' (List.mem_cons_of_mem c hc')),
      chauffeurStep_cacheGet_ne opts ps c k (h c (List.mem_cons_self c cs))]

theorem foldC_isSome (opts : CreateMarkersOptions) (l : List Chauffeur)
    (ps : PassState) (k : String) :
    (cacheGet (l.foldl (chauffeurStep opts) ps).cache k).isSome = true ↔
      (cacheGet ps.cache k).isSome = true ∨
        ∃ c ∈ l, c.coordinates.isSome = true ∧ k = chauffeurKey c.id := by
  induction l generalizing ps with
  | nil => simp
  | cons c cs ih =>
    rw [List.foldl_cons, ih (chauffeurStep opts ps c), chauffeurStep_isSome opts ps c k]
    constructor
    · rintro ((h | h) | ⟨c', hc', hk⟩)
      · exact Or.inl h
      · exact Or.inr ⟨c, List.mem_cons_self c cs, h⟩
      · exact Or.inr ⟨c', List.mem_cons_of_mem c hc', hk⟩
    · rintro (h | ⟨c', hc', hk⟩)
      · exact Or.inl (Or.inl h)
      · rcases List.mem_cons.mp hc' with rfl | hc'
        · exact Or.inl (Or.inr hk)
        · exact Or.inr ⟨c', hc', hk⟩

theorem foldC_currentIds (opts : CreateMarkersOptions) (l : List Chauffeur)
    (ps : PassState) (k : String) :
    k ∈ (l.foldl (chauffeurStep opts) ps).currentIds ↔
      k ∈ ps.currentIds ∨ ∃ c ∈ l, c.coordinates.isSome = true ∧ k = chauffeurKey c.id := by
  induction l generalizing ps with
  | nil => simp
  | cons c cs ih =>
    rw [List.foldl_cons, ih (chauffeurStep opts ps c)]
    have hstep : k ∈ (chauffeurStep opts ps c).currentIds ↔
        k ∈ ps.currentIds ∨ (c.coordinates.isSome = true ∧ k = chauffeurKey c.id) := by
      cases hc : c.coordinates with
      | none => rw [chauffeurStep_skip opts ps c hc]; simp [hc]
      | some pos =>
        rw [chauffeurStep_currentIds opts ps c pos hc, mem_setAdd]
        simp [hc]
    rw [hstep]
    constructor
    · rintro ((h | h) | ⟨c', hc', hk⟩)
      · exact Or.inl h
      · exact Or.inr ⟨c, List.mem_cons_self c cs, h⟩
      · exact Or.inr ⟨c', List.mem_cons_of_mem c hc', hk⟩
    · rintro (h | ⟨c', hc', hk⟩)
      · exact Or.inl (Or.inl h)
      · rcases List.mem_cons.mp hc' with rfl | hc'
        · exact Or.inl (Or.inr hk)
        · exact Or.inr ⟨c', hc', hk⟩

theorem foldC_layers_mono (opts : CreateMarkersOptions) (l : List Chauffeur)
    (ps : PassState) (x : Nat) (hx : x ∈ ps.layers) :
    x ∈ (l.foldl (chauffeurStep opts) ps).layers := by
  induction l generalizing ps with
  | nil => exact hx
  | cons c cs ih =>
    exact ih (chauffeurStep opts ps c) (chauffeurStep_layers_mono opts ps c x hx)

theorem foldC_inv (opts : CreateMarkersOptions) (l : List Chauffeur)
    (ps : PassState) (h : PassInv ps) : PassInv (l.foldl (chauffeurStep opts) ps) := by
  induction l generalizing ps with
  | nil => exact h
  | cons c cs ih => exact ih (chauffeurStep opts ps c) (chauffeurStep_inv opts ps c h)

theorem foldC_entries (opts : CreateMarkersOptions) (l : List Chauffeur)
    (ps : PassState) (p : String × Marker)
    (hp : p ∈ (l.foldl (chauffeurStep opts) ps).cache) :
    p ∈ ps.cache ∨ ∃ c ∈ l, ∃ u pos, c.coordinates = some pos ∧
      p = (chauffeurKey c.id, buildChauffeurMarker opts u c pos) := by
  induction l generalizing ps with
  | nil => exact Or.inl hp
  | cons c cs ih =>
    rcases ih (chauffeurStep opts ps c) hp with h | ⟨c', hc', u, pos, hcoord, hu⟩
    · rcases chauffeurStep_entries opts ps c p h with h' | ⟨u, pos, hcoord, hu⟩
      · exact Or.inl h'
      · exact Or.inr ⟨c, List.mem_cons_self c cs, u, pos, hcoord, hu⟩
    · exact Or.inr ⟨c', List.mem_cons_of_mem c hc', u, pos, hcoord, hu⟩

theorem foldC_markers (opts : CreateMarkersOptions) (l : List Chauffeur)
    (ps : PassState) :
    (l.foldl (chauffeurStep opts) ps).markers.map some =
      ps.markers.map some ++
        (l.filter (fun c => c.coordinates.isSome)).map
          (fun c => cacheGet (l.foldl (chauffeurStep opts) ps).cache (chauffeurKey c.id)) := by
  induction l generalizing ps with
  | nil => simp
  | cons c cs ih =>
    cases hc : c.coordinates with
    | none =>
      have hfilter : (c :: cs).filter (fun x => x.coordinates.isSome) =
          cs.filter (fun x => x.coordinates.isSome) := by
        simp [List.filter_cons, hc]
      rw [List.foldl_cons, chauffeurStep_skip opts ps c hc, hfilter]
      exact ih ps
    | some pos =>
      obtain ⟨m, hmk, hget⟩ := chauffeurStep_markers opts ps c pos hc
      have hfilter : (c :: cs).filter (fun x => x.coordinates.isSome) =
          c :: cs.filter (fun x => x.coordinates.isSome) := by
        simp [List.filter_cons, hc]
      have hfinal : cacheGet (cs.foldl (chauffeurStep opts) (chauffeurStep opts ps c)).cache
          (chauffeurKey c.id) = some m :=
        foldC_cacheGet_stable opts cs (chauffeurStep opts ps c) _ m hget
      rw [List.foldl_cons, ih (chauffeurStep opts ps c), hmk, hfilter, List.map_cons, hfinal]
      simp

theorem foldC_inert (opts : CreateMarkersOptions) (l : List Chauffeur)
    (ps : PassState)
    (h : ∀ c ∈ l, ∀ pos, c.coordinates = some pos →
      ∃ m, cacheGet ps.cache (chauffeurKey c.id) = some m ∧ m.uid ∈ ps.layers) :
    (l.foldl (chauffeurStep opts) ps).cache = ps.cache ∧
      (l.foldl (chauffeurStep opts) ps).layers = ps.layers ∧
      (l.foldl (chauffeurStep opts) ps).nextUid = ps.nextUid ∧
      (l.foldl (chauffeurStep opts) ps).events = ps.events := by
  induction l generalizing ps with
  | nil => exact ⟨rfl, rfl, rfl, rfl⟩
  | cons c cs ih =>
    cases hc : c.coordinates with
    | none =>
      rw [List.foldl_cons, chauffeurStep_skip opts ps c hc]
      exact ih ps (fun c' hc' => h c' (List.mem_cons_of_mem c hc'))
    | some pos =>
      obtain ⟨m, hm, hl⟩ := h c (List.mem_cons_self c cs) pos hc
      have hstep := chauffeurStep_inert opts ps c pos m hc hm hl
      rw [List.foldl_cons, hstep]
      exact ih _ (fun c' hc' => h c' (List.mem_cons_of_mem c hc'))

/-! Lemmas about the removal sweep and the full pass. -/

theorem createMarkers_eq (opts : CreateMarkersOptions) (st : SyncState) :
    createMarkers opts st =
      { returned := (removalPhase (passFold opts st)).markers
        state :=
          { cache := (removalPhase (passFold opts st)).cache
            layers := (removalPhase (passFold opts st)).layers
            nextUid := (removalPhase (passFold opts st)).nextUid }
        events := (removalPhase (passFold opts st)).events } := rfl

theorem find?_filter_key (c : Cache) (g : String → Bool) (k : String) :
    (c.filter (fun p => g p.1)).find? (fun p => p.1 == k) =
      if g k then c.find? (fun p => p.1 == k) else none := by
  induction c with
  | nil => cases hg : g k <;> simp
  | cons p c ih =>
    by_cases hp : p.1 = k
    · have hbeq : (p.1 == k) = true := by simp [hp]
      cases hg : g k with
      | true =>
        have hgp : g p.1 = true := by rw [hp, hg]
        simp [List.filter_cons, hgp, List.find?_cons, hbeq]
      | false =>
        have hgp : g p.1 = false := by rw [hp, hg]
        simp [List.filter_cons, hgp, ih, hg]
    · have hbeq : (p.1 == k) = false := by simp [hp]
      cases hgp : g p.1 with
      | true => simp [List.filter_cons, hgp, List.find?_cons, hbeq, ih]
      | false => simp [List.filter_cons, hgp, ih, List.find?_cons, hbeq]

theorem cacheGet_filter_key (c : Cache) (g : String → Bool) (k : String) :
    cacheGet (c.filter (fun p => g p.1)) k = if g k then cacheGet c k else none := by
  unfold cacheGet
  rw [find?_filter_key]
  cases hg : g k <;> simp

theorem removalPhase_markers (ps : PassState) :
    (removalPhase ps).markers = ps.markers := rfl

theorem removalPhase_nextUid (ps : PassState) :
    (removalPhase ps).nextUid = ps.nextUid := rfl

theorem removalPhase_cacheGet (ps : PassState) (k : String) :
    cacheGet (removalPhase ps).cache k =
      if ps.currentIds.contains k then cacheGet ps.cache k else none := by
  exact cacheGet_filter_key ps.cache (fun a => ps.currentIds.contains a) k

theorem removalPhase_removed_mem (ps : PassState) (k : String) (m : Marker)
    (hmem : (k, m) ∈ ps.cache) (hk : k ∉ ps.currentIds) :
    (k, m) ∈ ps.cache.filter (fun p => !(ps.currentIds.contains p.1)) := by
  refine List.mem_filter.mpr ⟨hmem, ?_⟩
  have hc : ps.currentIds.contains k = false := by
    cases hc : ps.currentIds.contains k with
    | true => exact absurd (List.elem_iff.mp hc) hk
    | false => rfl
  show (!(ps.currentIds.contains k)) = true
  rw [hc]
  rfl

theorem removalPhase_layers_not_mem (ps : PassState) (k : String) (m : Marker)
    (hmem : (k, m) ∈ ps.cache) (hk : k ∉ ps.currentIds) :
    m.uid ∉ (removalPhase ps).layers := by
  intro hin
  have hpred := (List.mem_filter.mp hin).2
  have hany : (ps.cache.filter (fun p => !(ps.currentIds.contains p.1))).any
      (fun p => p.2.uid == m.uid) = true :=
    List.any_eq_true.mpr ⟨(k, m), removalPhase_removed_mem ps k m hmem hk, by simp⟩
  rw [hany] at hpred
  simp at hpred

theorem removalPhase_layers_mem (ps : PassState) (u : Nat) (hu : u ∈ ps.layers)
    (h : ∀ p ∈ ps.cache, p.1 ∉ ps.currentIds → p.2.uid ≠ u) :
    u ∈ (removalPhase ps).layers := by
  refine List.mem_filter.mpr ⟨hu, ?_⟩
  have hany : (ps.cache.filter (fun p => !(ps.currentIds.contains p.1))).any
      (fun p => p.2.uid == u) = false := by
    cases hres : (ps.cache.filter (fun p => !(ps.currentIds.contains p.1))).any
        (fun p => p.2.uid == u) with
    | false => rfl
    | true =>
      obtain ⟨p, hp, hpu⟩ := List.any_eq_true.mp hres
      have hmem := List.mem_filter.mp hp
      have hnotin : p.1 ∉ ps.currentIds := by
        intro hin
        have hc : ps.currentIds.contains p.1 = true := List.elem_iff.mpr hin
        have h2 := hmem.2
        rw [hc] at h2
        simp at h2
      exact absurd (by simpa using hpu) (h p hmem.1 hnotin)
  show (!(ps.cache.filter (fun p => !(ps.currentIds.contains p.1))).any
      (fun p => p.2.uid == u)) = true
  rw [hany]
  rfl

theorem removalPhase_detached (ps : PassState) (k : String) (m : Marker)
    (hmem : (k, m) ∈ ps.cache) (hk : k ∉ ps.currentIds) :
    Event.detached m.uid ∈ (removalPhase ps).events := by
  have hmap : Event.detached m.uid ∈
      (ps.cache.filter (fun p => !(ps.currentIds.contains p.1))).map
        (fun p => Event.detached p.2.uid) :=
    List.mem_map.mpr ⟨(k, m), removalPhase_removed_mem ps k m hmem hk, rfl⟩
  exact List.mem_append.mpr (Or.inr hmap)

theorem removalPhase_id (ps : PassState)
    (h : ∀ p ∈ ps.cache, p.1 ∈ ps.currentIds) :
    removalPhase ps = ps := by
  have hall : ∀ p ∈ ps.cache, ps.currentIds.contains p.1 = true :=
    fun p hp => List.elem_iff.mpr (h p hp)
  have hrem : ps.cache.filter (fun p => !(ps.currentIds.contains p.1)) = [] := by
    rw [List.filter_eq_nil_iff]
    intro p hp
    rw [hall p hp]
    simp
  have hcache : ps.cache.filter (fun p => ps.currentIds.contains p.1) = ps.cache :=
    List.filter_eq_self.mpr hall
  unfold removalPhase
  rw [hrem, hcache]
  simp

theorem nodup_uid_entry_eq (c : Cache) (hnd : (c.map (fun p => p.2.uid)).Nodup)
    (p q : String × Marker) (hp : p ∈ c) (hq : q ∈ c) (h : p.2.uid = q.2.uid) :
    p = q :=
  List.inj_on_of_nodup_map hnd hp hq h

theorem mem_targetKeys (opts : CreateMarkersOptions) (k : String) :
    k ∈ targetKeys opts ↔
      (∃ w ∈ opts.warehouses, k = warehouseKey w.id) ∨
        ∃ c ∈ opts.chauffeurs, c.coordinates.isSome = true ∧ k = chauffeurKey c.id := by
  unfold targetKeys
  rw [List.mem_append]
  constructor
  · rintro (h | h)
    · obtain ⟨w, hw, hk⟩ := List.mem_map.mp h
      exact Or.inl ⟨w, hw, hk.symm⟩
    · obtain ⟨c, hc, hk⟩ := List.mem_map.mp h
      have hc' := List.mem_filter.mp hc
      exact Or.inr ⟨c, hc'.1, hc'.2, hk.symm⟩
  · rintro (⟨w, hw, hk⟩ | ⟨c, hc, hcoord, hk⟩)
    · exact Or.inl (List.mem_map.mpr ⟨w, hw, hk.symm⟩)
    · exact Or.inr (List.mem_map.mpr ⟨c, List.mem_filter.mpr ⟨hc, hcoord⟩, hk.symm⟩)

theorem passFold_isSome (opts : CreateMarkersOptions) (st : SyncState) (k : String) :
    (cacheGet (passFold opts st).cache k).isSome = true ↔
      (cacheGet st.cache k).isSome = true ∨ k ∈ targetKeys opts := by
  unfold passFold
  rw [foldC_isSome, foldW_isSome, mem_targetKeys]
  have hinit : cacheGet (initPass st).cache k = cacheGet st.cache k := rfl
  rw [hinit]
  constructor
  · rintro ((h | h) | h)
    · exact Or.inl h
    · exact Or.inr (Or.inl h)
    · exact Or.inr (Or.inr h)
  · rintro (h | (h | h))
    · exact Or.inl (Or.inl h)
    · exact Or.inl (Or.inr h)
    · exact Or.inr h

theorem passFold_currentIds (opts : CreateMarkersOptions) (st : SyncState) (k : String) :
    k ∈ (passFold opts st).currentIds ↔ k ∈ targetKeys opts := by
  unfold passFold
  rw [foldC_currentIds, foldW_currentIds, mem_targetKeys]
  have : k ∉ (initPass st).currentIds := by
    intro h
    simp [initPass] at h
  constructor
  · rintro ((h | h) | h)
    · exact absurd h this
    · exact Or.inl h
    · exact Or.inr h
  · rintro (h | h)
    · exact Or.inl (Or.inr h)
    · exact Or.inr h

theorem passFold_inv (opts : CreateMarkersOptions) (st : SyncState)
    (h : WellFormed st) : PassInv (passFold opts st) := by
  obtain ⟨h1, h2, h3⟩ := h
  have hinit : PassInv (initPass st) := by
    refine ⟨h1, h2, h3, ?_⟩
    intro k hk
    simp [initPass] at hk
  exact foldC_inv opts _ _ (foldW_inv opts _ _ hinit)

theorem passFold_stable (opts : CreateMarkersOptions) (st : SyncState) (k : String)
    (m : Marker) (h : cacheGet st.cache k = some m) :
    cacheGet (passFold opts st).cache k = some m := by
  unfold passFold
  exact foldC_cacheGet_stable opts _ _ _ _ (foldW_cacheGet_stable opts _ _ _ _ h)

theorem passFold_not_target (opts : CreateMarkersOptions) (st : SyncState) (k : String)
    (hk : k ∉ targetKeys opts) :
    cacheGet (passFold opts st).cache k = cacheGet st.cache k := by
  have hw : ∀ w ∈ opts.warehouses, k ≠ warehouseKey w.id := by
    intro w hw hkw
    exact hk ((mem_targetKeys opts k).mpr (Or.inl ⟨w, hw, hkw⟩))
  have hc : ∀ c ∈ opts.chauffeurs, c.coordinates.isSome = true → k ≠ chauffeurKey c.id := by
    intro c hc hcoord hkc
    exact hk ((mem_targetKeys opts k).mpr (Or.inr ⟨c, hc, hcoord, hkc⟩))
  unfold passFold
  rw [foldC_cacheGet_ne opts _ _ _ hc, foldW_cacheGet_ne opts _ _ _ hw]
  rfl

theorem createMarkers_cache_lookup (opts : CreateMarkersOptions) (st : SyncState)
    (k : String) (hk : k ∈ targetKeys opts) :
    cacheGet (createMarkers opts st).state.cache k = cacheGet (passFold opts st).cache k := by
  show cacheGet (removalPhase (passFold opts st)).cache k = _
  rw [removalPhase_cacheGet]
  have hc : (passFold opts st).currentIds.contains k = true :=
    List.elem_iff.mpr ((passFold_currentIds opts st k).mpr hk)
  rw [hc]
  simp

theorem createMarkers_keyset (opts : CreateMarkersOptions) (st : SyncState) (k : String) :
    (cacheGet (createMarkers opts st).state.cache k).isSome = true ↔ k ∈ targetKeys opts := by
  show (cacheGet (removalPhase (passFold opts st)).cache k).isSome = true ↔ _
  rw [removalPhase_cacheGet]
  by_cases hk : k ∈ targetKeys opts
  · have hc : (passFold opts st).currentIds.contains k = true :=
      List.elem_iff.mpr ((passFold_currentIds opts st k).mpr hk)
    rw [hc]
    simp only [if_pos]
    constructor
    · intro _
      exact hk
    · intro _
      exact (passFold_isSome opts st k).mpr (Or.inr hk)
  · have hc : (passFold opts st).currentIds.contains k = false := by
      cases hc : (passFold opts st).currentIds.contains k with
      | true => exact absurd ((passFold_currentIds opts st k).mp (List.elem_iff.mp hc)) hk
      | false => rfl
    rw [hc]
    simp [hk]

theorem passFold_markers (opts : CreateMarkersOptions) (st : SyncState) :
    (passFold opts st).markers.map some =
      opts.warehouses.map (fun w => cacheGet (passFold opts st).cache (warehouseKey w.id)) ++
        (opts.chauffeurs.filter (fun c => c.coordinates.isSome)).map
          (fun c => cacheGet (passFold opts st).cache (chauffeurKey c.id)) := by
  have hW := foldW_markers opts opts.warehouses (initPass st)
  have hinit : (initPass st).markers = [] := rfl
  rw [hinit] at hW
  simp only [List.map_nil, List.nil_append] at hW
  unfold passFold
  rw [foldC_markers opts opts.chauffeurs
    (opts.warehouses.foldl (warehouseStep opts) (initPass st)), hW]
  congr 1
  apply List.map_congr_left
  intro w hw
  have hsome : (cacheGet (opts.warehouses.foldl (warehouseStep opts) (initPass st)).cache
      (warehouseKey w.id)).isSome = true :=
    (foldW_isSome opts opts.warehouses (initPass st) _).mpr (Or.inr ⟨w, hw, rfl⟩)
  obtain ⟨m, hm⟩ := Option.isSome_iff_exists.mp hsome
  rw [hm]
  exact (foldC_cacheGet_stable opts opts.chauffeurs _ _ m hm).symm

theorem createMarkers_returned_spec (opts : CreateMarkersOptions) (st : SyncState) :
    (createMarkers opts st).returned.map some =
      opts.warehouses.map
          (fun w => cacheGet (createMarkers opts st).state.cache (warehouseKey w.id)) ++
        (opts.chauffeurs.filter (fun c => c.coordinates.isSome)).map
          (fun c => cacheGet (createMarkers opts st).state.cache (chauffeurKey c.id)) := by
  have hret : (createMarkers opts st).returned = (passFold opts st).markers := rfl
  rw [hret, passFold_markers opts st]
  congr 1
  · apply List.map_congr_left
    intro w hw
    exact (createMarkers_cache_lookup opts st _
      ((mem_targetKeys opts _).mpr (Or.inl ⟨w, hw, rfl⟩))).symm
  · apply List.map_congr_left
    intro c hcmem
    have hcf := List.mem_filter.mp hcmem
    exact (createMarkers_cache_lookup opts st _
      ((mem_targetKeys opts _).mpr (Or.inr ⟨c, hcf.1, hcf.2, rfl⟩))).symm

theorem createMarkers_wf (opts : CreateMarkersOptions) (st : SyncState)
    (h : WellFormed st) : WellFormed (createMarkers opts st).state := by
  obtain ⟨h1, h2, h3, _⟩ := passFold_inv opts st h
  have hcache : (createMarkers opts st).state.cache =
      (passFold opts st).cache.filter
        (fun p => (passFold opts st).currentIds.contains p.1) := rfl
  have hnext : (createMarkers opts st).state.nextUid = (passFold opts st).nextUid := rfl
  refine ⟨?_, ?_, ?_⟩
  · rw [hcache]
    exact h1.sublist (((passFold opts st).cache.filter_sublist).map Prod.fst)
  · rw [hcache]
    exact h2.sublist (((passFold opts st).cache.filter_sublist).map _)
  · rw [hcache, hnext]
    intro p hp
    exact h3 p (List.mem_filter.mp hp).1

theorem createMarkers_synced (opts : CreateMarkersOptions) (st : SyncState)
    (h : WellFormed st) (k : String) (hk : k ∈ targetKeys opts) :
    ∃ m, cacheGet (createMarkers opts st).state.cache k = some m ∧
      m.uid ∈ (createMarkers opts st).state.layers := by
  obtain ⟨_, h2, _, h4⟩ := passFold_inv opts st h
  have hcur : k ∈ (passFold opts st).currentIds := (passFold_currentIds opts st k).mpr hk
  obtain ⟨m, hm, hl⟩ := h4 k hcur
  refine ⟨m, ?_, ?_⟩
  · rw [createMarkers_cache_lookup opts st k hk]
    exact hm
  · show m.uid ∈ (removalPhase (passFold opts st)).layers
    apply removalPhase_layers_mem _ _ hl
    intro p hp hnot hpu
    have hkm : (k, m) ∈ (passFold opts st).cache := cacheGet_mem _ _ _ hm
    have hpe : p = (k, m) := nodup_uid_entry_eq _ h2 p (k, m) hp hkm hpu
    rw [hpe] at hnot
    exact hnot hcur

theorem createMarkers_inert (opts : CreateMarkersOptions) (st' : SyncState)
    (hsync : ∀ k ∈ targetKeys opts, ∃ m, cacheGet st'.cache k = some m ∧ m.uid ∈ st'.layers)
    (hkeys : ∀ p ∈ st'.cache, p.1 ∈ targetKeys opts) :
    (createMarkers opts st').state = st' ∧ (createMarkers opts st').events = [] := by
  have hWsync : ∀ w ∈ opts.warehouses, ∃ m,
      cacheGet (initPass st').cache (warehouseKey w.id) = some m ∧
        m.uid ∈ (initPass st').layers := by
    intro w hw
    exact hsync _ ((mem_targetKeys opts _).mpr (Or.inl ⟨w, hw, rfl⟩))
  obtain ⟨hWc, hWl, hWn, hWe⟩ := foldW_inert opts opts.warehouses (initPass st') hWsync
  have hCsync : ∀ c ∈ opts.chauffeurs, ∀ pos, c.coordinates = some pos → ∃ m,
      cacheGet (opts.warehouses.foldl (warehouseStep opts) (initPass st')).cache
          (chauffeurKey c.id) = some m ∧
        m.uid ∈ (opts.warehouses.foldl (warehouseStep opts) (initPass st')).layers := by
    intro c hc pos hpos
    rw [hWc, hWl]
    exact hsync _ ((mem_targetKeys opts _).mpr (Or.inr ⟨c, hc, by simp [hpos], rfl⟩))
  obtain ⟨hCc, hCl, hCn, hCe⟩ := foldC_inert opts opts.chauffeurs
    (opts.warehouses.foldl (warehouseStep opts) (initPass st')) hCsync
  have hPc : (passFold opts st').cache = st'.cache := by
    unfold passFold
    rw [hCc, hWc]
    rfl
  have hPl : (passFold opts st').layers = st'.layers := by
    unfold passFold
    rw [hCl, hWl]
    rfl
  have hPn : (passFold opts st').nextUid = st'.nextUid := by
    unfold passFold
    rw [hCn, hWn]
    rfl
  have hPe : (passFold opts st').events = [] := by
    unfold passFold
    rw [hCe, hWe]
    rfl
  have hPcur : ∀ p ∈ (passFold opts st').cache, p.1 ∈ (passFold opts st').currentIds := by
    intro p hp
    rw [hPc] at hp
    exact (passFold_currentIds opts st' p.1).mpr (hkeys p hp)
  have hid : removalPhase (passFold opts st') = passFold opts st' := removalPhase_id _ hPcur
  constructor
  · show ({ cache := (removalPhase (passFold opts st')).cache
            layers := (removalPhase (passFold opts st')).layers
            nextUid := (removalPhase (passFold opts st')).nextUid } : SyncState) = st'
    rw [hid, hPc, hPl, hPn]
  · show (removalPhase (passFold opts st')).events = []
    rw [hid, hPe]

/-! Lemmas about bounding boxes. -/

theorem boundsContains_pointBounds (p : ℚ × ℚ) : boundsContains (pointBounds p) p :=
  ⟨le_refl _, le_refl _, le_refl _, le_refl _⟩

theorem boundsContains_extend (b : Bounds) (p q : ℚ × ℚ) (h : boundsContains b q) :
    boundsContains (extendBounds b p) q := by
  obtain ⟨h1, h2, h3, h4⟩ := h
  exact ⟨le_trans (min_le_left _ _) h1, le_trans h2 (le_max_left _ _),
    le_trans (min_le_left _ _) h3, le_trans h4 (le_max_left _ _)⟩

theorem boundsContains_extend_self (b : Bounds) (p : ℚ × ℚ) :
    boundsContains (extendBounds b p) p :=
  ⟨min_le_right _ _, le_max_right _ _, min_le_right _ _, le_max_right _ _⟩

theorem foldl_extend_contains (ps : List (ℚ × ℚ)) (b : Bounds) (q : ℚ × ℚ)
    (h : boundsContains b q) : boundsContains (ps.foldl extendBounds b) q := by
  induction ps generalizing b with
  | nil => exact h
  | cons p ps ih => exact ih _ (boundsContains_extend b p q h)

theorem foldl_extend_contains_mem (ps : List (ℚ × ℚ)) (b : Bounds) (p : ℚ × ℚ)
    (hp : p ∈ ps) : boundsContains (ps.foldl extendBounds b) p := by
  induction ps generalizing b with
  | nil => cases hp
  | cons q ps ih =>
    rcases List.mem_cons.mp hp with rfl | hp'
    · exact foldl_extend_contains ps _ _ (boundsContains_extend_self b p)
    · exact ih _ hp'

theorem boundsOfCons_contains (p : ℚ × ℚ) (ps : List (ℚ × ℚ)) (q : ℚ × ℚ)
    (h : q ∈ p :: ps) : boundsContains (boundsOfCons p ps) q := by
  rcases List.mem_cons.mp h with rfl | h'
  · exact foldl_extend_contains ps _ _ (boundsContains_pointBounds q)
  · exact foldl_extend_contains_mem ps _ q h'

theorem foldl_extend_minimal (ps : List (ℚ × ℚ)) (b b' : Bounds)
    (hb1 : b'.south ≤ b.south) (hb2 : b.north ≤ b'.north)
    (hb3 : b'.west ≤ b.west) (hb4 : b.east ≤ b'.east)
    (h : ∀ p ∈ ps, boundsContains b' p) :
    b'.south ≤ (ps.foldl extendBounds b).south ∧
      (ps.foldl extendBounds b).north ≤ b'.north ∧
      b'.west ≤ (ps.foldl extendBounds b).west ∧
      (ps.foldl extendBounds b).east ≤ b'.east := by
  induction ps generalizing b with
  | nil => exact ⟨hb1, hb2, hb3, hb4⟩
  | cons p ps ih =>
    obtain ⟨h1, h2, h3, h4⟩ := h p (List.mem_cons_self p ps)
    exact ih (extendBounds b p) (le_min hb1 h1) (max_le hb2 h2) (le_min hb3 h3) (max_le hb4 h4)
      (fun q hq => h q (List.mem_cons_of_mem p hq))

theorem boundsOfCons_minimal (p : ℚ × ℚ) (ps : List (ℚ × ℚ)) (b' : Bounds)
    (h : ∀ q ∈ p :: ps, boundsContains b' q) :
    b'.south ≤ (boundsOfCons p ps).south ∧ (boundsOfCons p ps).north ≤ b'.north ∧
      b'.west ≤ (boundsOfCons p ps).west ∧ (boundsOfCons p ps).east ≤ b'.east := by
  obtain ⟨h1, h2, h3, h4⟩ := h p (List.mem_cons_self p ps)
  exact foldl_extend_minimal ps (pointBounds p) b' h1 h2 h3 h4
    (fun q hq => h q (List.mem_cons_of_mem p hq))

theorem mem_of_some_mem_map (l : List Marker) (m : Marker)
    (h : some m ∈ l.map some) : m ∈ l := by
  obtain ⟨x, hx, hxe⟩ := List.mem_map.mp h
  have hxm : x = m := Option.some.inj hxe
  rw [← hxm]
  exact hx

theorem emptyState_wellFormed : WellFormed emptyState :=
  ⟨List.nodup_nil, List.nodup_nil, fun p hp => absurd hp (List.not_mem_nil p)⟩

theorem sampleStateAfter_wellFormed : WellFormed sampleStateAfter :=
  createMarkers_wf sampleOpts emptyState emptyState_wellFormed

/-! Claim theorems. -/

/-- C1: after a `createMarkers` pass from a well-formed state, the cache
key set equals exactly the composite keys of the input warehouses
together with those of the input chauffeurs that have a coordinate, and
no key maps to more than one handle. -/
theorem createMarkers_keyset_convergence (opts : CreateMarkersOptions) (st : SyncState)
    (h : WellFormed st) :
    (∀ k, (cacheGet (createMarkers opts st).state.cache k).isSome = true ↔
        k ∈ targetKeys opts) ∧
      ((createMarkers opts st).state.cache.map Prod.fst).Nodup := by
  obtain ⟨h1, _, _⟩ := createMarkers_wf opts st h
  exact ⟨fun k => createMarkers_keyset opts st k, h1⟩

/-- Witness for C1 at the sample inputs from the pristine state. -/
theorem createMarkers_keyset_convergence_witness :
    ((cacheGet (createMarkers sampleOpts emptyState).state.cache
        (warehouseKey sampleWarehouse.id)).isSome = true ↔
      warehouseKey sampleWarehouse.id ∈ targetKeys sampleOpts) ∧
      ((createMarkers sampleOpts emptyState).state.cache.map Prod.fst).Nodup := by
  have h := createMarkers_keyset_convergence sampleOpts emptyState emptyState_wellFormed
  exact ⟨h.1 _, h.2⟩

/-- C2: a second `createMarkers` call with identical inputs returns the
same handle list, leaves the persistent state (cache, attached layers,
identity counter) unchanged, and performs no creation, attachment or
detachment side effect. -/
theorem createMarkers_idempotent (opts : CreateMarkersOptions) (st : SyncState)
    (h : WellFormed st) :
    (createMarkers opts (createMarkers opts st).state).returned =
        (createMarkers opts st).returned ∧
      (createMarkers opts (createMarkers opts st).state).state =
        (createMarkers opts st).state ∧
      (createMarkers opts (createMarkers opts st).state).events = [] := by
  have hsync : ∀ k ∈ targetKeys opts, ∃ m,
      cacheGet (createMarkers opts st).state.cache k = some m ∧
        m.uid ∈ (createMarkers opts st).state.layers :=
    fun k hk => createMarkers_synced opts st h k hk
  have hkeys : ∀ p ∈ (createMarkers opts st).state.cache, p.1 ∈ targetKeys opts := by
    intro p hp
    exact (createMarkers_keyset opts st p.1).mp (mem_key_isSome _ p hp)
  obtain ⟨hstate, hevents⟩ := createMarkers_inert opts (createMarkers opts st).state hsync hkeys
  refine ⟨?_, hstate, hevents⟩
  have h1 := createMarkers_returned_spec opts st
  have h2 := createMarkers_returned_spec opts (createMarkers opts st).state
  rw [hstate] at h2
  apply List.map_injective_iff.mpr (Option.some_injective _)
  rw [h1, h2]

/-- Witness for C2 at the sample inputs from the pristine state. -/
theorem createMarkers_idempotent_witness :
    (createMarkers sampleOpts (createMarkers sampleOpts emptyState).state).returned =
        (createMarkers sampleOpts emptyState).returned ∧
      (createMarkers sampleOpts (createMarkers sampleOpts emptyState).state).state =
        (createMarkers sampleOpts emptyState).state ∧
      (createMarkers sampleOpts (createMarkers sampleOpts emptyState).state).events = [] :=
  createMarkers_idempotent sampleOpts emptyState emptyState_wellFormed

/-- C3: a cached key that no longer qualifies (its record is absent from
the inputs or lost its coordinate) has its handle detached from the map
surface, is evicted from the cache, and its handle is not returned. -/
theorem createMarkers_removal (opts : CreateMarkersOptions) (st : SyncState)
    (k : String) (m : Marker) (h : WellFormed st)
    (hm : cacheGet st.cache k = some m) (hk : k ∉ targetKeys opts) :
    cacheGet (createMarkers opts st).state.cache k = none ∧
      m.uid ∉ (createMarkers opts st).state.layers ∧
      m ∉ (createMarkers opts st).returned ∧
      Event.detached m.uid ∈ (createMarkers opts st).events := by
  obtain ⟨_, h2p, _, _⟩ := passFold_inv opts st h
  have hP : cacheGet (passFold opts st).cache k = some m := passFold_stable opts st k m hm
  have hmem : (k, m) ∈ (passFold opts st).cache := cacheGet_mem _ _ _ hP
  have hcur : k ∉ (passFold opts st).currentIds := by
    intro hin
    exact hk ((passFold_currentIds opts st k).mp hin)
  have habs : ∀ k' ∈ targetKeys opts,
      cacheGet (createMarkers opts st).state.cache k' = some m → False := by
    intro k' hk' hv
    have hfin : cacheGet (passFold opts st).cache k' = some m := by
      rw [← createMarkers_cache_lookup opts st k' hk']
      exact hv
    have hmem' : (k', m) ∈ (passFold opts st).cache := cacheGet_mem _ _ _ hfin
    have hpq : (k', m) = (k, m) := nodup_uid_entry_eq _ h2p _ _ hmem' hmem rfl
    have hkk : k' = k := congrArg Prod.fst hpq
    rw [hkk] at hk'
    exact hk hk'
  refine ⟨?_, ?_, ?_, ?_⟩
  · cases hv : cacheGet (createMarkers opts st).state.cache k with
    | none => rfl
    | some m' =>
      exact absurd ((createMarkers_keyset opts st k).mp (by rw [hv]; rfl)) hk
  · show m.uid ∉ (removalPhase (passFold opts st)).layers
    exact removalPhase_layers_not_mem _ _ _ hmem hcur
  · intro hret
    have hmm : some m ∈ (createMarkers opts st).returned.map some :=
      List.mem_map.mpr ⟨m, hret, rfl⟩
    rw [createMarkers_returned_spec opts st] at hmm
    rcases List.mem_append.mp hmm with hmm | hmm
    · obtain ⟨w, hw, hw2⟩ := List.mem_map.mp hmm
      exact habs _ ((mem_targetKeys opts _).mpr (Or.inl ⟨w, hw, rfl⟩)) hw2
    · obtain ⟨c, hc, hc2⟩ := List.mem_map.mp hmm
      have hcf := List.mem_filter.mp hc
      exact habs _ ((mem_targetKeys opts _).mpr (Or.inr ⟨c, hcf.1, hcf.2, rfl⟩)) hc2
  · show Event.detached m.uid ∈ (removalPhase (passFold opts st)).events
    exact removalPhase_detached _ _ _ hmem hcur

set_option maxRecDepth 100000 in
/-- Witness for C3: the sample chauffeur marker is evicted, detached and
not returned once the chauffeur list becomes empty. -/
theorem createMarkers_removal_witness :
    cacheGet (createMarkers sampleOptsNoChauffeurs sampleStateAfter).state.cache
        (chauffeurKey sampleChauffeur.id) = none ∧
      sampleMarkerB.uid ∉ (createMarkers sampleOptsNoChauffeurs sampleStateAfter).state.layers ∧
      sampleMarkerB ∉ (createMarkers sampleOptsNoChauffeurs sampleStateAfter).returned ∧
      Event.detached sampleMarkerB.uid ∈
        (createMarkers sampleOptsNoChauffeurs sampleStateAfter).events :=
  createMarkers_removal sampleOptsNoChauffeurs sampleStateAfter
    (chauffeurKey sampleChauffeur.id) sampleMarkerB sampleStateAfter_wellFormed
    (by decide) (by decide)

/-- C4: a chauffeur without a coordinate is skipped silently (its loop
iteration is a no-op), its composite key ends up absent from the cache,
and no returned marker carries a click handler built from that record,
provided no other input record shares its id with a coordinate and no
previously cached marker was built from that record. -/
theorem createMarkers_excludes_coordless_driver (opts : CreateMarkersOptions)
    (st : SyncState) (c : Chauffeur)
    (hc : c.coordinates = none)
    (hall : ∀ c' ∈ opts.chauffeurs, c'.id = c.id → c'.coordinates = none)
    (hcap : ∀ p ∈ st.cache, ∀ b, p.2.handler ≠ ClickHandler.onChauffeur c b) :
    (∀ ps, chauffeurStep opts ps c = ps) ∧
      cacheGet (createMarkers opts st).state.cache (chauffeurKey c.id) = none ∧
      ∀ m ∈ (createMarkers opts st).returned, ∀ b,
        m.handler ≠ ClickHandler.onChauffeur c b := by
  have hktarget : chauffeurKey c.id ∉ targetKeys opts := by
    intro hin
    rcases (mem_targetKeys opts _).mp hin with ⟨w, hw, hkeq⟩ | ⟨c', hc', hcoord, hkeq⟩
    · exact warehouseKey_ne_chauffeurKey w.id c.id hkeq.symm
    · have hid : c'.id = c.id := chauffeurKey_inj _ _ hkeq.symm
      have hnone := hall c' hc' hid
      rw [hnone] at hcoord
      simp at hcoord
  refine ⟨fun ps => chauffeurStep_skip opts ps c hc, ?_, ?_⟩
  · cases hv : cacheGet (createMarkers opts st).state.cache (chauffeurKey c.id) with
    | none => rfl
    | some m' =>
      exact absurd ((createMarkers_keyset opts st _).mp (by rw [hv]; rfl)) hktarget
  · intro m hret b hhandler
    have hmm : some m ∈ (createMarkers opts st).returned.map some :=
      List.mem_map.mpr ⟨m, hret, rfl⟩
    rw [createMarkers_returned_spec opts st] at hmm
    have hEntry : ∃ k', cacheGet (createMarkers opts st).state.cache k' = some m := by
      rcases List.mem_append.mp hmm with hmm | hmm
      · obtain ⟨w, hw, hw2⟩ := List.mem_map.mp hmm
        exact ⟨_, hw2⟩
      · obtain ⟨c', hc', hc2⟩ := List.mem_map.mp hmm
        exact ⟨_, hc2⟩
    obtain ⟨k', hv⟩ := hEntry
    have hmemF : (k', m) ∈ (createMarkers opts st).state.cache := cacheGet_mem _ _ _ hv
    have hmemP : (k', m) ∈ (passFold opts st).cache := by
      have heq : (createMarkers opts st).state.cache =
          (passFold opts st).cache.filter
            (fun p => (passFold opts st).currentIds.contains p.1) := rfl
      rw [heq] at hmemF
      exact (List.mem_filter.mp hmemF).1
    rcases foldC_entries opts opts.chauffeurs _ _ hmemP with hmemW | ⟨c', _, u, pos, hcoord, hpe⟩
    · rcases foldW_entries opts opts.warehouses _ _ hmemW with hmemI | ⟨w, _, u, hpe⟩
      · exact hcap (k', m) hmemI b hhandler
      · have hme : m = buildWarehouseMarker opts u w := congrArg Prod.snd hpe
        rw [hme] at hhandler
        simp [buildWarehouseMarker] at hhandler
    · have hme : m = buildChauffeurMarker opts u c' pos := congrArg Prod.snd hpe
      rw [hme] at hhandler
      have hinj : c' = c ∧ opts.onChauffeurClick = b := by
        simpa [buildChauffeurMarker] using hhandler
      rw [hinj.1] at hcoord
      rw [hc] at hcoord
      cases hcoord

/-- Witness for C4: the coordinate-less sample chauffeur gets no cache
entry. -/
theorem createMarkers_excludes_coordless_driver_witness :
    cacheGet (createMarkers sampleOpts emptyState).state.cache
        (chauffeurKey sampleChauffeurNoCoord.id) = none :=
  (createMarkers_excludes_coordless_driver sampleOpts emptyState sampleChauffeurNoCoord
    (by decide) (by decide) (fun p hp => absurd hp (List.not_mem_nil p))).2.1

/-- C5: with a nonempty marker list and no forced refresh, the viewport
fitter performs the bounding fit (padding (20, 20), zoom cap 15) exactly
when the current zoom differs from the default zoom 6 by strictly less
than one level, and otherwise issues no camera operation at all. -/
theorem fitMapToMarkers_passive_gating (camera : MapCamera) (m : Marker)
    (ms : List Marker) :
    (|camera.zoom - 6| < 1 →
        fitMapToMarkers camera (m :: ms) false =
          [CameraOp.fitBounds (boundsOfCons m.pos (ms.map (fun x => x.pos))) 20 20 15]) ∧
      (¬ |camera.zoom - 6| < 1 → fitMapToMarkers camera (m :: ms) false = []) := by
  constructor
  · intro h
    simp [fitMapToMarkers, markerBounds, h]
  · intro h
    simp [fitMapToMarkers, markerBounds, h]

/-- Witness for C5: at zoom 6 the passive fit happens, at zoom 10 it
does not. -/
theorem fitMapToMarkers_passive_gating_witness :
    fitMapToMarkers sampleCamera6 [sampleMarkerA] false =
        [CameraOp.fitBounds (boundsOfCons sampleMarkerA.pos []) 20 20 15] ∧
      fitMapToMarkers sampleCamera10 [sampleMarkerA] false = [] := by
  constructor
  · exact (fitMapToMarkers_passive_gating sampleCamera6 sampleMarkerA []).1
      (by norm_num [sampleCamera6])
  · exact (fitMapToMarkers_passive_gating sampleCamera10 sampleMarkerA []).2
      (by norm_num [sampleCamera10])

/-- C6: with zero markers the viewport fitter sets the surface to the
fixed default center (28.0339, 1.6596) at zoom 6, whatever the value of
the force flag. -/
theorem fitMapToMarkers_empty_default_view (camera : MapCamera) (forceRefresh : Bool)
    (fitZoom : ℚ) :
    fitMapToMarkers camera [] forceRefresh = [CameraOp.setView (28.0339, 1.6596) 6] ∧
      applyCameraOp (CameraOp.setView (28.0339, 1.6596) 6) fitZoom =
        { center := (28.0339, 1.6596), zoom := 6 } := by
  constructor
  · cases forceRefresh <;> simp [fitMapToMarkers]
  · rfl

/-- C7: with a nonempty marker list and a forced refresh, the viewport
fitter issues exactly one bounding fit whose box is the smallest one
containing every marker position, with padding (20, 20) and zoom cap 15,
so the resulting zoom never exceeds 15. -/
theorem fitMapToMarkers_forced_fit (camera : MapCamera) (m : Marker)
    (ms : List Marker) (fitZoom : ℚ) :
    fitMapToMarkers camera (m :: ms) true =
        [CameraOp.fitBounds (boundsOfCons m.pos (ms.map (fun x => x.pos))) 20 20 15] ∧
      (∀ p ∈ m.pos :: ms.map (fun x => x.pos),
        boundsContains (boundsOfCons m.pos (ms.map (fun x => x.pos))) p) ∧
      (∀ b' : Bounds, (∀ p ∈ m.pos :: ms.map (fun x => x.pos), boundsContains b' p) →
        b'.south ≤ (boundsOfCons m.pos (ms.map (fun x => x.pos))).south ∧
          (boundsOfCons m.pos (ms.map (fun x => x.pos))).north ≤ b'.north ∧
          b'.west ≤ (boundsOfCons m.pos (ms.map (fun x => x.pos))).west ∧
          (boundsOfCons m.pos (ms.map (fun x => x.pos))).east ≤ b'.east) ∧
      (applyCameraOp
          (CameraOp.fitBounds (boundsOfCons m.pos (ms.map (fun x => x.pos))) 20 20 15)
          fitZoom).zoom ≤ 15 := by
  refine ⟨?_, ?_, ?_, ?_⟩
  · simp [fitMapToMarkers, markerBounds]
  · intro p hp
    exact boundsOfCons_contains _ _ _ hp
  · intro b' hb'
    exact boundsOfCons_minimal _ _ _ hb'
  · show min fitZoom 15 ≤ 15
    exact min_le_right _ _

/-- Witness for C7 at markers (10, 10) and (20, 20). -/
theorem fitMapToMarkers_forced_fit_witness :
    fitMapToMarkers sampleCamera10 [sampleMarkerA, sampleMarkerB] true =
        [CameraOp.fitBounds (boundsOfCons sampleMarkerA.pos [sampleMarkerB.pos]) 20 20 15] ∧
      (applyCameraOp
          (CameraOp.fitBounds (boundsOfCons sampleMarkerA.pos [sampleMarkerB.pos]) 20 20 15)
          99).zoom ≤ 15 := by
  have h := fitMapToMarkers_forced_fit sampleCamera10 sampleMarkerA [sampleMarkerB] 99
  exact ⟨h.1, h.2.2.2⟩

/-- C8: the returned list is the handles of the target keys, warehouses
first in input order, then coordinate-bearing chauffeurs in input order,
each handle being the final cache entry of its key. -/
theorem createMarkers_return_order (opts : CreateMarkersOptions) (st : SyncState) :
    (createMarkers opts st).returned.map some =
      opts.warehouses.map
          (fun w => cacheGet (createMarkers opts st).state.cache (warehouseKey w.id)) ++
        (opts.chauffeurs.filter (fun c => c.coordinates.isSome)).map
          (fun c => cacheGet (createMarkers opts st).state.cache (chauffeurKey c.id)) :=
  createMarkers_returned_spec opts st

/-- C9: the outbound link is exactly the maps-provider search URL with
the coordinates substituted and the name percent-encoded; the name
"Dépôt Nord" encodes to D%C3%A9p%C3%B4t%20Nord. -/
theorem createGoogleMapsLink_format (lat lng : ℚ) (name : String) :
    createGoogleMapsLink lat lng name =
        ("https://www.google.com/maps/search/?api=1&query=") ++ jsNumToString lat ++
          (",") ++ jsNumToString lng ++ ("&query_place_id=") ++ encodeURIComponent name ∧
      encodeURIComponent ("Dépôt Nord") = ("D%C3%A9p%C3%B4t%20Nord") :=
  ⟨rfl, by decide⟩

/-- C10: a record whose composite key is already cached is served by the
cached handle unchanged — same identity, position, icon, popup and click
handler as captured at creation — whatever the current record fields or
display mode are, and that handle is in the returned list. -/
theorem createMarkers_reuses_cached_handle (opts : CreateMarkersOptions) (st : SyncState)
    (k : String) (m : Marker) (hk : k ∈ targetKeys opts)
    (hm : cacheGet st.cache k = some m) :
    cacheGet (createMarkers opts st).state.cache k = some m ∧
      m ∈ (createMarkers opts st).returned := by
  have hfin : cacheGet (createMarkers opts st).state.cache k = some m := by
    rw [createMarkers_cache_lookup opts st k hk]
    exact passFold_stable opts st k m hm
  refine ⟨hfin, ?_⟩
  apply mem_of_some_mem_map
  rw [createMarkers_returned_spec opts st]
  rcases (mem_targetKeys opts k).mp hk with ⟨w, hw, hkeq⟩ | ⟨c, hc, hcoord, hkeq⟩
  · apply List.mem_append.mpr
    left
    exact List.mem_map.mpr ⟨w, hw, by rw [← hkeq]; exact hfin⟩
  · apply List.mem_append.mpr
    right
    exact List.mem_map.mpr ⟨c, List.mem_filter.mpr ⟨hc, hcoord⟩, by rw [← hkeq]; exact hfin⟩

set_option maxRecDepth 100000 in
/-- Witness for C10: the sample warehouse handle created on the first
pass is reused unchanged on the second. -/
theorem createMarkers_reuses_cached_handle_witness :
    cacheGet (createMarkers sampleOpts sampleStateAfter).state.cache
        (warehouseKey sampleWarehouse.id) = some sampleMarkerA ∧
      sampleMarkerA ∈ (createMarkers sampleOpts sampleStateAfter).returned :=
  createMarkers_reuses_cached_handle sampleOpts sampleStateAfter
    (warehouseKey sampleWarehouse.id) sampleMarkerA (by decide) (by decide)

end MapCore
